import Mathlib

/-!
Verification of the change-detection diffing engine of the
google-sheet-sync repository (`src/unnamed/part_001`, class `ChangeDetector`).

The TypeScript code is shallowly embedded below:
* a cell value (`any` in the source: string / number / boolean / null /
  undefined) becomes the inductive `CellValue`; JS `String(value)` becomes
  `cellToString`, JS truthiness becomes `truthy`, and `v || ''` becomes
  `jsOrEmpty`;
* a table (`any[][]`) becomes `Table := List (List CellValue)`; a missing
  cell (`row[i]` out of range) reads as `CellValue.undef` via `getCell`;
* the `SheetData` record becomes an insertion-ordered association list, and
  JS `Map` (insertion-ordered, first-occurrence-wins via the
  `if (!m.has(k)) m.set(k, v)` pattern) becomes an association list built
  by `insertIfAbsent`; iterating `forEach` with an index over the
  normalized keys is modelled by `mapFromKeysGo` folding over the list of
  per-element keys;
* `new Date().toISOString()` (wall clock) is modelled as the constant `""`
  in the `timestamp` field: no claim concerns its value.
-/

namespace SheetSync

/-- A spreadsheet cell value (`any` in the source). Numbers are modelled as
integers (`String(n)` is decimal notation); floats are out of scope. -/
inductive CellValue where
  | null : CellValue
  | undef : CellValue
  | str : String → CellValue
  | num : Int → CellValue
  | boolV : Bool → CellValue
deriving DecidableEq, Repr

/-- JS `String(value)`. -/
def cellToString : CellValue → String
  | CellValue.null => "null"
  | CellValue.undef => "undefined"
  | CellValue.str s => s
  | CellValue.num n => toString n
  | CellValue.boolV b => if b then "true" else "false"

/-- JS truthiness of a cell value (`NaN` not representable in this model). -/
def truthy : CellValue → Bool
  | CellValue.null => false
  | CellValue.undef => false
  | CellValue.str s => s ≠ ""
  | CellValue.num n => n ≠ 0
  | CellValue.boolV b => b

/-- JS `v || ''`. -/
def jsOrEmpty (v : CellValue) : CellValue :=
  if truthy v then v else CellValue.str ""

/-- JS `String.prototype.trim` on the character list. -/
def trimChars (cs : List Char) : List Char :=
  ((cs.dropWhile Char.isWhitespace).reverse.dropWhile Char.isWhitespace).reverse

/-- JS `s.trim()`. -/
def trimString (s : String) : String :=
  String.mk (trimChars s.data)

/-- `ChangeDetector.normalizeValue`:
`value === null || value === undefined ? '' : String(value).trim()`. -/
def normalizeValue : CellValue → String
  | CellValue.null => ""
  | CellValue.undef => ""
  | v => trimString (cellToString v)

/-- Fuel-driven body of `ChangeDetector.columnToLetter`; the fuel only makes
the recursion structural (`columnToLetter` supplies enough of it). -/
def columnToLetterGo : Nat → Nat → String
  | _, 0 => ""
  | 0, _ + 1 => ""
  | fuel + 1, n + 1 => columnToLetterGo fuel (n / 26) ++ String.mk [Char.ofNat (65 + n % 26)]

/-- `ChangeDetector.columnToLetter`: 1-indexed column number to
spreadsheet-style letters (1 → A, 26 → Z, 27 → AA). -/
def columnToLetter (column : Nat) : String :=
  columnToLetterGo column column

/-- `ChangeEvent['changeType']` from `types.ts`. -/
inductive ChangeType where
  | EDIT | INSERT_ROW | INSERT_COLUMN | REMOVE_ROW | REMOVE_COLUMN
  | INSERT_GRID | REMOVE_GRID | FORMAT | OTHER
deriving DecidableEq, Repr

/-- `ChangeEvent['affectedRange']` from `types.ts`. -/
structure AffectedRange where
  startRow : Nat
  endRow : Nat
  startColumn : Nat
  endColumn : Nat
  a1Notation : String
deriving DecidableEq, Repr

/-- One row / one table of cell values (`any[][]`). -/
abbrev Table := List (List CellValue)

/-- `ChangeEvent` from `types.ts` (optional fields become `Option`). -/
structure ChangeEvent where
  changeType : ChangeType
  sheetName : String
  affectedRange : AffectedRange
  cellAddress : Option String := none
  oldValue : Option CellValue := none
  newValue : Option CellValue := none
  rowIndex : Option Nat := none
  columnIndex : Option Nat := none
  insertedData : Option Table := none
  deletedData : Option Table := none
  timestamp : String := ""
deriving DecidableEq, Repr

/-- `SheetData` from `types.ts`: sheet name → table, insertion-ordered. -/
abbrev SheetData := List (String × Table)

/-- `row[i]`: a missing cell reads as JS `undefined`. -/
def getCell (row : List CellValue) (i : Nat) : CellValue :=
  row.getD i CellValue.undef

/-- First-match lookup in an insertion-ordered association list
(JS `Map.prototype.get` — keys are unique in a `Map`, so first match is
the match). -/
def alookup {β : Type} : List (String × β) → String → Option β
  | [], _ => none
  | p :: rest, k => if p.1 = k then some p.2 else alookup rest k

/-- The `if (!m.has(k)) m.set(k, v)` pattern on a JS `Map`
(insertion-ordered, first occurrence wins). -/
def insertIfAbsent (m : List (String × Nat)) (k : String) (v : Nat) : List (String × Nat) :=
  if (alookup m k).isSome then m else m ++ [(k, v)]

/-- `keys.forEach((k, idx) => if (keep k) insertIfAbsent k idx)` starting at
index `idx` with accumulated map `m`. -/
def mapFromKeysGo (keep : String → Bool) : Nat → List String → List (String × Nat) → List (String × Nat)
  | _, [], m => m
  | idx, k :: rest, m =>
      mapFromKeysGo keep (idx + 1) rest (if keep k then insertIfAbsent m k idx else m)

/-- The normalized header texts of a header row. -/
def headerKeys (hdr : List CellValue) : List String :=
  hdr.map normalizeValue

/-- The normalized primary keys (column 0) of a list of data rows. -/
def rowKeys (rows : Table) : List String :=
  rows.map (fun row => normalizeValue (getCell row 0))

/-- The header → column-index map built in `detectColumnChanges` /
`detectCellEdits` (`forEach` + first-occurrence `set`; every header,
including ones normalizing to `""`, participates). -/
def buildColMap (hdr : List CellValue) : List (String × Nat) :=
  mapFromKeysGo (fun _ => true) 0 (headerKeys hdr) []

/-- The primary-key → row-index map built in `detectRowChanges` /
`detectCellEdits` (`if (primaryKey && !m.has(primaryKey)) m.set(...)`:
keys normalizing to `""` are excluded). -/
def buildRowMap (rows : Table) : List (String × Nat) :=
  mapFromKeysGo (fun k => k != "") 0 (rowKeys rows) []

/-- `previous.length > 0 ? previous[0] : []`. -/
def headerOf (t : Table) : List CellValue :=
  t.headD []

/-- `t.length > 1 ? t.slice(1) : []`. -/
def dataRowsOf (t : Table) : Table :=
  if t.length > 1 then t.drop 1 else []

/-- The `insertedData` / `deletedData` payload of a column event:
`t.length > 1 ? t.slice(1).map(row => [row[c] || '']).filter(([val]) => val !== '') : []`. -/
def columnData (t : Table) (c : Nat) : Table :=
  if t.length > 1 then
    ((t.drop 1).map (fun row => [jsOrEmpty (getCell row c)])).filter
      (fun l => getCell l 0 ≠ CellValue.str "")
  else []

/-- `ChangeDetector.detectColumnChanges` (Phase 1). -/
def detectColumnChanges (previous current : Table) (sheetName : String) : List ChangeEvent :=
  let prevColMap := buildColMap (headerOf previous)
  let currColMap := buildColMap (headerOf current)
  let maxRow := Nat.max previous.length current.length
  let inserted := currColMap.filterMap (fun p =>
    if (alookup prevColMap p.1).isSome then none
    else some
      { changeType := ChangeType.INSERT_COLUMN
        sheetName := sheetName
        affectedRange :=
          { startRow := 1, endRow := maxRow, startColumn := p.2 + 1, endColumn := p.2 + 1
            a1Notation :=
              columnToLetter (p.2 + 1) ++ "1:" ++ columnToLetter (p.2 + 1) ++ toString maxRow }
        columnIndex := some (p.2 + 1)
        insertedData := some (columnData current p.2) })
  let removed := prevColMap.filterMap (fun p =>
    if (alookup currColMap p.1).isSome then none
    else some
      { changeType := ChangeType.REMOVE_COLUMN
        sheetName := sheetName
        affectedRange :=
          { startRow := 1, endRow := maxRow, startColumn := p.2 + 1, endColumn := p.2 + 1
            a1Notation :=
              columnToLetter (p.2 + 1) ++ "1:" ++ columnToLetter (p.2 + 1) ++ toString maxRow }
        columnIndex := some (p.2 + 1)
        deletedData := some (columnData previous p.2) })
  inserted ++ removed

/-- `Math.max(...prevRows.map(r => r.length), ...currRows.map(r => r.length), row.length)`. -/
def maxColOf (prevRows currRows : Table) (row : List CellValue) : Nat :=
  ((prevRows.map List.length) ++ (currRows.map List.length) ++ [row.length]).foldl Nat.max 0

/-- `ChangeDetector.detectRowChanges` (Phase 2). -/
def detectRowChanges (previous current : Table) (sheetName : String) : List ChangeEvent :=
  let prevDataRows := dataRowsOf previous
  let currDataRows := dataRowsOf current
  let prevRowMap := buildRowMap prevDataRows
  let currRowMap := buildRowMap currDataRows
  let inserted := currRowMap.filterMap (fun p =>
    if (alookup prevRowMap p.1).isSome then none
    else
      let actualRowNum := p.2 + 2
      let row := currDataRows.getD p.2 []
      some
        { changeType := ChangeType.INSERT_ROW
          sheetName := sheetName
          affectedRange :=
            { startRow := actualRowNum, endRow := actualRowNum
              startColumn := 1, endColumn := maxColOf prevDataRows currDataRows row
              a1Notation := toString actualRowNum ++ ":" ++ toString actualRowNum }
          rowIndex := some actualRowNum
          insertedData := some [row] })
  let removed := prevRowMap.filterMap (fun p =>
    if (alookup currRowMap p.1).isSome then none
    else
      let actualRowNum := p.2 + 2
      let row := prevDataRows.getD p.2 []
      some
        { changeType := ChangeType.REMOVE_ROW
          sheetName := sheetName
          affectedRange :=
            { startRow := actualRowNum, endRow := actualRowNum
              startColumn := 1, endColumn := maxColOf prevDataRows currDataRows row
              a1Notation := toString actualRowNum ++ ":" ++ toString actualRowNum }
          rowIndex := some actualRowNum
          deletedData := some [row] })
  inserted ++ removed

/-- The header → `{prevIdx, currIdx}` mapping of `detectCellEdits`
(only headers present in both snapshots). -/
def columnMappingOf (prevColMap currColMap : List (String × Nat)) : List (String × Nat × Nat) :=
  prevColMap.filterMap (fun p => (alookup currColMap p.1).map (fun c => (p.1, p.2, c)))

/-- `ChangeDetector.detectCellEdits` (Phase 3). -/
def detectCellEdits (previous current : Table) (sheetName : String) : List ChangeEvent :=
  let prevDataRows := dataRowsOf previous
  let currDataRows := dataRowsOf current
  let prevColMap := buildColMap (headerOf previous)
  let currColMap := buildColMap (headerOf current)
  let columnMapping := columnMappingOf prevColMap currColMap
  let prevRowMap := buildRowMap prevDataRows
  let currRowMap := buildRowMap currDataRows
  prevRowMap.flatMap (fun rp =>
    match alookup currRowMap rp.1 with
    | none => []
    | some currRowIdx =>
      let prevRow := prevDataRows.getD rp.2 []
      let currRow := currDataRows.getD currRowIdx []
      let actualRowNum := currRowIdx + 2
      columnMapping.filterMap (fun cp =>
        if cp.2.1 = 0 ∧ cp.2.2 = 0 then none
        else
          let prevValue :=
            if getCell prevRow cp.2.1 = CellValue.undef then CellValue.str ""
            else getCell prevRow cp.2.1
          let currValue :=
            if getCell currRow cp.2.2 = CellValue.undef then CellValue.str ""
            else getCell currRow cp.2.2
          if normalizeValue prevValue = normalizeValue currValue then none
          else
            let cellAddress := columnToLetter (cp.2.2 + 1) ++ toString actualRowNum
            some
              { changeType := ChangeType.EDIT
                sheetName := sheetName
                affectedRange :=
                  { startRow := actualRowNum, endRow := actualRowNum
                    startColumn := cp.2.2 + 1, endColumn := cp.2.2 + 1
                    a1Notation := cellAddress }
                cellAddress := some cellAddress
                oldValue := some prevValue
                newValue := some currValue }))

/-- The sheet names of a snapshot, in insertion order (`Object.keys`). -/
def keysOf (d : SheetData) : List String :=
  d.map Prod.fst

/-- `new Set([...])`: deduplicate keeping the first occurrence, in order. -/
def dedupFirst : List String → List String
  | [] => []
  | x :: xs => x :: (dedupFirst xs).filter (fun y => y ≠ x)

/-- `data[sheetName] || []`. -/
def lookupTable (d : SheetData) (s : String) : Table :=
  (alookup d s).getD []

/-- The per-sheet body of the `detectChanges` loop: skip sheets empty in
both snapshots, otherwise run the three phases in order. -/
def sheetChanges (previous current : Table) (sheetName : String) : List ChangeEvent :=
  if previous.length = 0 ∧ current.length = 0 then []
  else
    detectColumnChanges previous current sheetName
      ++ detectRowChanges previous current sheetName
      ++ detectCellEdits previous current sheetName

/-- `ChangeDetector.detectChanges`. -/
def detectChanges (previousData currentData : SheetData) : List ChangeEvent :=
  let allSheetNames := dedupFirst (keysOf previousData ++ keysOf currentData)
  allSheetNames.flatMap (fun sheetName =>
    sheetChanges (lookupTable previousData sheetName) (lookupTable currentData sheetName)
      sheetName)

/-- Index of the first occurrence of `k` in `ks` (specification-side helper
for stating first-occurrence properties of the maps). -/
def firstIdx : List String → String → Option Nat
  | [], _ => none
  | x :: xs, k => if x = k then some 0 else (firstIdx xs k).map (fun d => d + 1)

/-- Emission phase of an event: column events, then row events, then edits
(the three phases of the per-sheet pipeline). -/
def phaseRank (e : ChangeEvent) : Nat :=
  match e.changeType with
  | ChangeType.INSERT_COLUMN => 0
  | ChangeType.REMOVE_COLUMN => 0
  | ChangeType.INSERT_ROW => 1
  | ChangeType.REMOVE_ROW => 1
  | ChangeType.EDIT => 2
  | _ => 3

/-- A snapshot whose sheet contains a data row with an empty primary key;
the row is otherwise perfectly ordinary. -/
def emptyKeySnap : SheetData :=
  [("S", [[CellValue.str "id", CellValue.str "v"],
          [CellValue.str "", CellValue.str "x"]])]

/-- Previous table for the column-insertion counterexample. -/
def zeroCellPrev : Table := [[CellValue.str "id"]]

/-- Current table for the column-insertion counterexample: a new column
`"n"` whose only data cell is the number `0`. -/
def zeroCellCurr : Table :=
  [[CellValue.str "id", CellValue.str "n"],
   [CellValue.str "a", CellValue.num 0]]

/-- Previous snapshot for the primary-key collision counterexample:
data rows keyed `"a"` and `"b"`. -/
def keyCollisionPrev : SheetData :=
  [("S", [[CellValue.str "id"], [CellValue.str "a"], [CellValue.str "b"]])]

/-- Current snapshot for the primary-key collision counterexample: the first
row's key was changed from `"a"` to `"b"`, colliding with the second row. -/
def keyCollisionCurr : SheetData :=
  [("S", [[CellValue.str "id"], [CellValue.str "b"], [CellValue.str "b"]])]

/-- A deliberately malformed snapshot: ragged rows, a sheet with no header
row would be `[]`, an empty table, and a sheet missing from the other side. -/
def malformedPrev : SheetData :=
  [("Ragged", [[CellValue.str "id", CellValue.str "a"],
               [CellValue.str "x"],
               [CellValue.str "y", CellValue.num 1, CellValue.boolV true]]),
   ("Empty", []),
   ("OnlyPrev", [[CellValue.str "h"]])]

/-- Malformed counterpart of `malformedPrev` (sheet present only here,
empty header row, missing cells). -/
def malformedCurr : SheetData :=
  [("Ragged", [[CellValue.str "id"],
               [CellValue.str "x", CellValue.null]]),
   ("OnlyCurr", [[], [CellValue.str "q"]])]

/-! ### Association-list and map-construction lemmas -/

/-- Well-formedness of a first-occurrence index map: pairwise distinct keys
and pairwise distinct indices. -/
def MapOK (m : List (String × Nat)) : Prop :=
  m.Pairwise (fun p q => p.1 ≠ q.1 ∧ p.2 ≠ q.2)

theorem alookup_append_some {β : Type} {m m2 : List (String × β)} {k : String} {v : β}
    (h : alookup m k = some v) : alookup (m ++ m2) k = some v := by
  induction m with
  | nil => simp [alookup] at h
  | cons p rest ih =>
    simp only [alookup, List.cons_append] at h ⊢
    by_cases hp : p.1 = k
    · simpa [hp] using h
    · simp only [hp, if_false] at h ⊢
      exact ih h

theorem alookup_append_none {β : Type} {m m2 : List (String × β)} {k : String}
    (h : alookup m k = none) : alookup (m ++ m2) k = alookup m2 k := by
  induction m with
  | nil => simp
  | cons p rest ih =>
    simp only [alookup, List.cons_append] at h ⊢
    by_cases hp : p.1 = k
    · simp [hp] at h
    · simp only [hp, if_false] at h ⊢
      exact ih h

theorem alookup_mem {β : Type} {m : List (String × β)} {k : String} {v : β}
    (h : alookup m k = some v) : (k, v) ∈ m := by
  induction m with
  | nil => simp [alookup] at h
  | cons p rest ih =>
    simp only [alookup] at h
    by_cases hp : p.1 = k
    · rw [if_pos hp, Option.some.injEq] at h
      have hpk : p = (k, v) := by
        cases p
        simp_all
      exact List.mem_cons.2 (Or.inl hpk.symm)
    · rw [if_neg hp] at h
      exact List.mem_cons_of_mem _ (ih h)

theorem alookup_none_forall {β : Type} {m : List (String × β)} {k : String}
    (h : alookup m k = none) : ∀ p ∈ m, p.1 ≠ k := by
  induction m with
  | nil => simp
  | cons p rest ih =>
    simp only [alookup] at h
    by_cases hp : p.1 = k
    · rw [if_pos hp] at h
      cases h
    · rw [if_neg hp] at h
      intro q hq
      rcases List.mem_cons.1 hq with hq | hq
      · subst hq
        exact hp
      · exact ih h q hq

theorem alookup_of_mem_ok {m : List (String × Nat)} (hm : MapOK m) {p : String × Nat}
    (hp : p ∈ m) : alookup m p.1 = some p.2 := by
  induction m with
  | nil => simp at hp
  | cons q rest ih =>
    rcases List.pairwise_cons.1 hm with ⟨hq, hrest⟩
    rcases List.mem_cons.1 hp with hp | hp
    · subst hp
      simp [alookup]
    · have hne : q.1 ≠ p.1 := (hq p hp).1
      simp only [alookup]
      rw [if_neg hne]
      exact ih hrest hp

theorem insertIfAbsent_mem {m : List (String × Nat)} {k : String} {v : Nat} {p : String × Nat}
    (h : p ∈ insertIfAbsent m k v) : p ∈ m ∨ p = (k, v) := by
  unfold insertIfAbsent at h
  by_cases hl : (alookup m k).isSome = true
  · rw [if_pos hl] at h
    exact Or.inl h
  · rw [if_neg hl] at h
    simpa using h

theorem insertIfAbsent_lookup_some {m : List (String × Nat)} {k k' : String} {v v' : Nat}
    (h : alookup m k = some v) : alookup (insertIfAbsent m k' v') k = some v := by
  unfold insertIfAbsent
  by_cases hl : (alookup m k').isSome = true
  · rw [if_pos hl]
    exact h
  · rw [if_neg hl]
    exact alookup_append_some h

theorem insertIfAbsent_lookup_none {m : List (String × Nat)} {k k' : String} {v' : Nat}
    (hne : k' ≠ k) (h : alookup m k = none) :
    alookup (insertIfAbsent m k' v') k = none := by
  unfold insertIfAbsent
  by_cases hl : (alookup m k').isSome = true
  · rw [if_pos hl]
    exact h
  · rw [if_neg hl, alookup_append_none h]
    simp [alookup, hne]

theorem insertIfAbsent_ok {m : List (String × Nat)} {k : String} {v : Nat}
    (hm : MapOK m) (hv : ∀ p ∈ m, p.2 < v) : MapOK (insertIfAbsent m k v) := by
  unfold insertIfAbsent
  by_cases hl : (alookup m k).isSome = true
  · rw [if_pos hl]
    exact hm
  · rw [if_neg hl]
    unfold MapOK
    rw [List.pairwise_append]
    refine ⟨hm, by simp, ?_⟩
    intro p hp q hq
    simp only [List.mem_singleton] at hq
    subst hq
    have hk : alookup m k = none := Option.not_isSome_iff_eq_none.1 hl
    exact ⟨alookup_none_forall hk p hp, Nat.ne_of_lt (hv p hp)⟩

theorem insertIfAbsent_bound {m : List (String × Nat)} {k : String} {v : Nat}
    (hv : ∀ p ∈ m, p.2 < v) : ∀ p ∈ insertIfAbsent m k v, p.2 < v + 1 := by
  intro p hp
  rcases insertIfAbsent_mem hp with h | h
  · exact Nat.lt_succ_of_lt (hv p h)
  · subst h
    exact Nat.lt_succ_self v

theorem mapFromKeysGo_ok (keep : String → Bool) :
    ∀ (ks : List String) (idx : Nat) (m : List (String × Nat)),
      MapOK m → (∀ p ∈ m, p.2 < idx) →
      MapOK (mapFromKeysGo keep idx ks m) ∧
        ∀ p ∈ mapFromKeysGo keep idx ks m, p.2 < idx + ks.length := by
  intro ks
  induction ks with
  | nil =>
    intro idx m hm hb
    exact ⟨hm, fun p hp => by simpa using hb p hp⟩
  | cons k rest ih =>
    intro idx m hm hb
    simp only [mapFromKeysGo]
    by_cases hk : keep k = true
    · rw [if_pos hk]
      have h1 : MapOK (insertIfAbsent m k idx) := insertIfAbsent_ok hm hb
      have h2 : ∀ p ∈ insertIfAbsent m k idx, p.2 < idx + 1 := insertIfAbsent_bound hb
      have := ih (idx + 1) (insertIfAbsent m k idx) h1 h2
      refine ⟨this.1, fun p hp => ?_⟩
      have hlt := this.2 p hp
      simp only [List.length_cons]
      omega
    · rw [if_neg hk]
      have h2 : ∀ p ∈ m, p.2 < idx + 1 := fun p hp => Nat.lt_succ_of_lt (hb p hp)
      have := ih (idx + 1) m hm h2
      refine ⟨this.1, fun p hp => ?_⟩
      have hlt := this.2 p hp
      simp only [List.length_cons]
      omega

theorem buildColMap_ok (hdr : List CellValue) : MapOK (buildColMap hdr) :=
  (mapFromKeysGo_ok _ _ 0 [] (by simp [MapOK]) (by simp)).1

theorem buildRowMap_ok (rows : Table) : MapOK (buildRowMap rows) :=
  (mapFromKeysGo_ok _ _ 0 [] (by simp [MapOK]) (by simp)).1

theorem mapFromKeysGo_mem (keep : String → Bool) :
    ∀ (ks : List String) (idx : Nat) (m : List (String × Nat)) (p : String × Nat),
      p ∈ mapFromKeysGo keep idx ks m →
      p ∈ m ∨ ∃ d, d < ks.length ∧ p.1 = ks.getD d "" ∧ p.2 = idx + d ∧ keep p.1 = true := by
  intro ks
  induction ks with
  | nil =>
    intro idx m p hp
    exact Or.inl (by simpa [mapFromKeysGo] using hp)
  | cons k rest ih =>
    intro idx m p hp
    simp only [mapFromKeysGo] at hp
    by_cases hk : keep k = true
    · rw [if_pos hk] at hp
      rcases ih (idx + 1) _ p hp with h | ⟨d, hd, h1, h2, h3⟩
      · rcases insertIfAbsent_mem h with h | h
        · exact Or.inl h
        · subst h
          exact Or.inr ⟨0, by simp, by simpa using hk⟩
      · exact Or.inr ⟨d + 1, by simpa using hd,
          by simpa using h1, by omega, h3⟩
    · rw [if_neg hk] at hp
      rcases ih (idx + 1) _ p hp with h | ⟨d, hd, h1, h2, h3⟩
      · exact Or.inl h
      · exact Or.inr ⟨d + 1, by simpa using hd, by simpa using h1, by omega, h3⟩

theorem buildColMap_mem {hdr : List CellValue} {p : String × Nat}
    (hp : p ∈ buildColMap hdr) : p.2 < hdr.length ∧ p.1 = (headerKeys hdr).getD p.2 "" := by
  rcases mapFromKeysGo_mem _ _ 0 [] p hp with h | ⟨d, hd, h1, h2, _⟩
  · simp at h
  · have hd' : p.2 = d := by omega
    subst hd'
    exact ⟨by simpa [headerKeys] using hd, h1⟩

theorem buildRowMap_mem {rows : Table} {p : String × Nat}
    (hp : p ∈ buildRowMap rows) :
    p.2 < rows.length ∧ p.1 = (rowKeys rows).getD p.2 "" ∧ p.1 ≠ "" := by
  rcases mapFromKeysGo_mem _ _ 0 [] p hp with h | ⟨d, hd, h1, h2, h3⟩
  · simp at h
  · have hd' : p.2 = d := by omega
    subst hd'
    refine ⟨by simpa [rowKeys] using hd, h1, ?_⟩
    simpa using h3

theorem mapFromKeysGo_lookup_some (keep : String → Bool) :
    ∀ (ks : List String) (idx : Nat) (m : List (String × Nat)) {k : String} {v : Nat},
      alookup m k = some v → alookup (mapFromKeysGo keep idx ks m) k = some v := by
  intro ks
  induction ks with
  | nil => intro idx m k v h; simpa [mapFromKeysGo] using h
  | cons x rest ih =>
    intro idx m k v h
    simp only [mapFromKeysGo]
    by_cases hk : keep x = true
    · rw [if_pos hk]
      exact ih (idx + 1) _ (insertIfAbsent_lookup_some h)
    · rw [if_neg hk]
      exact ih (idx + 1) _ h

theorem mapFromKeysGo_lookup_fresh (keep : String → Bool) :
    ∀ (ks : List String) (idx : Nat) (m : List (String × Nat)) {k : String},
      keep k = true → alookup m k = none →
      alookup (mapFromKeysGo keep idx ks m) k = (firstIdx ks k).map (fun d => idx + d) := by
  intro ks
  induction ks with
  | nil => intro idx m k _ h; simpa [mapFromKeysGo, firstIdx] using h
  | cons x rest ih =>
    intro idx m k hkeep h
    simp only [mapFromKeysGo, firstIdx]
    by_cases hx : x = k
    · subst hx
      rw [if_pos hkeep, if_pos rfl]
      have hins : alookup (insertIfAbsent m x idx) x = some idx := by
        unfold insertIfAbsent
        rw [if_neg (by simp [h]), alookup_append_none h]
        simp [alookup]
      rw [mapFromKeysGo_lookup_some keep rest (idx + 1) _ hins]
      simp
    · rw [if_neg hx]
      have hnext : ∀ m' : List (String × Nat), alookup m' k = none →
          alookup (mapFromKeysGo keep (idx + 1) rest m') k
            = (firstIdx rest k).map (fun d => idx + 1 + d) := fun m' h' => ih (idx + 1) m' hkeep h'
      by_cases hk : keep x = true
      · rw [if_pos hk, hnext _ (insertIfAbsent_lookup_none hx h)]
        cases firstIdx rest k with
        | none => simp
        | some d => simp; omega
      · rw [if_neg hk, hnext _ h]
        cases firstIdx rest k with
        | none => simp
        | some d => simp; omega

theorem mapFromKeysGo_lookup_keepFalse (keep : String → Bool) :
    ∀ (ks : List String) (idx : Nat) (m : List (String × Nat)) {k : String},
      keep k = false → alookup m k = none →
      alookup (mapFromKeysGo keep idx ks m) k = none := by
  intro ks
  induction ks with
  | nil => intro idx m k _ h; simpa [mapFromKeysGo] using h
  | cons x rest ih =>
    intro idx m k hkeep h
    simp only [mapFromKeysGo]
    by_cases hk : keep x = true
    · rw [if_pos hk]
      have hx : x ≠ k := fun he => by rw [he] at hk; rw [hk] at hkeep; cases hkeep
      exact ih (idx + 1) _ hkeep (insertIfAbsent_lookup_none hx h)
    · rw [if_neg hk]
      exact ih (idx + 1) _ hkeep h

/-- Lookup in the row map never succeeds for the empty key. -/
theorem buildRowMap_lookup_empty (rows : Table) : alookup (buildRowMap rows) "" = none :=
  mapFromKeysGo_lookup_keepFalse _ _ 0 [] (by simp) rfl

/-! ### Generic list helpers -/

theorem flatMap_split {α β : Type _} {l1 l2 : List α} (a : α) {f : α → List β}
    (h1 : ∀ x ∈ l1, f x = []) (h2 : ∀ x ∈ l2, f x = []) :
    (l1 ++ a :: l2).flatMap f = f a := by
  rw [List.flatMap_append, List.flatMap_cons,
    List.flatMap_eq_nil_iff.2 h1, List.flatMap_eq_nil_iff.2 h2]
  simp

theorem filterMap_split {α β : Type _} {l1 l2 : List α} (a : α) {b : β} {f : α → Option β}
    (h1 : ∀ x ∈ l1, f x = none) (h2 : ∀ x ∈ l2, f x = none) (ha : f a = some b) :
    (l1 ++ a :: l2).filterMap f = [b] := by
  rw [List.filterMap_append]
  rw [List.filterMap_eq_nil_iff.2 h1]
  simp [List.filterMap_cons, ha, List.filterMap_eq_nil_iff.2 h2]

theorem filterMap_eq_map_of {α β : Type _} {l : List α} {f : α → Option β} {g : α → β}
    (h : ∀ a ∈ l, f a = some (g a)) : l.filterMap f = l.map g := by
  induction l with
  | nil => simp
  | cons a as ih =>
    rw [List.filterMap_cons, h a (List.mem_cons_self a as), List.map_cons,
      ih (fun x hx => h x (List.mem_cons_of_mem a hx))]

theorem mem_dedupFirst {x : String} : ∀ {l : List String}, x ∈ dedupFirst l ↔ x ∈ l := by
  intro l
  induction l with
  | nil => simp [dedupFirst]
  | cons y ys ih =>
    simp only [dedupFirst, List.mem_cons, List.mem_filter]
    constructor
    · rintro (h | ⟨h, _⟩)
      · exact Or.inl h
      · exact Or.inr (ih.1 h)
    · rintro (h | h)
      · exact Or.inl h
      · by_cases hxy : x = y
        · exact Or.inl hxy
        · exact Or.inr ⟨ih.2 h, by simp [hxy]⟩

theorem dedupFirst_nodup : ∀ l : List String, (dedupFirst l).Nodup := by
  intro l
  induction l with
  | nil => simp [dedupFirst]
  | cons y ys ih =>
    simp only [dedupFirst]
    rw [List.nodup_cons]
    refine ⟨fun hmem => ?_, List.Nodup.filter _ ih⟩
    have := (List.mem_filter.1 hmem).2
    simp at this

/-! ### Per-phase vanishing lemmas -/

/-- When the two header rows build the same column map, Phase 1 emits
nothing. -/
theorem detectColumnChanges_eq_nil {previous current : Table} {s : String}
    (h : buildColMap (headerOf previous) = buildColMap (headerOf current)) :
    detectColumnChanges previous current s = [] := by
  simp only [detectColumnChanges]
  rw [List.append_eq_nil]
  constructor
  · rw [List.filterMap_eq_nil_iff]
    intro p hp
    have hs : alookup (buildColMap (headerOf previous)) p.1 = some p.2 := by
      rw [h]
      exact alookup_of_mem_ok (buildColMap_ok _) hp
    rw [if_pos (by simp [hs])]
  · rw [List.filterMap_eq_nil_iff]
    intro p hp
    have hs : alookup (buildColMap (headerOf current)) p.1 = some p.2 := by
      rw [← h]
      exact alookup_of_mem_ok (buildColMap_ok _) hp
    rw [if_pos (by simp [hs])]

/-- When the two data-row lists build the same row map, Phase 2 emits
nothing. -/
theorem detectRowChanges_eq_nil {previous current : Table} {s : String}
    (h : buildRowMap (dataRowsOf previous) = buildRowMap (dataRowsOf current)) :
    detectRowChanges previous current s = [] := by
  simp only [detectRowChanges]
  rw [List.append_eq_nil]
  constructor
  · rw [List.filterMap_eq_nil_iff]
    intro p hp
    have hs : alookup (buildRowMap (dataRowsOf previous)) p.1 = some p.2 := by
      rw [h]
      exact alookup_of_mem_ok (buildRowMap_ok _) hp
    rw [if_pos (by simp [hs])]
  · rw [List.filterMap_eq_nil_iff]
    intro p hp
    have hs : alookup (buildRowMap (dataRowsOf current)) p.1 = some p.2 := by
      rw [← h]
      exact alookup_of_mem_ok (buildRowMap_ok _) hp
    rw [if_pos (by simp [hs])]

/-- When both column maps coincide, the cell-edit column mapping pairs every
header with twice the same index. -/
theorem columnMappingOf_self {M : List (String × Nat)} (hok : MapOK M) :
    columnMappingOf M M = M.map (fun p => (p.1, p.2, p.2)) := by
  unfold columnMappingOf
  exact filterMap_eq_map_of (fun p hp => by rw [alookup_of_mem_ok hok hp]; rfl)

/-- When the column maps coincide and every key matched by both row maps
points at identical rows, Phase 3 emits nothing. -/
theorem detectCellEdits_eq_nil {previous current : Table} {s : String}
    (hcol : buildColMap (headerOf previous) = buildColMap (headerOf current))
    (hrows : ∀ k i j, alookup (buildRowMap (dataRowsOf previous)) k = some i →
      alookup (buildRowMap (dataRowsOf current)) k = some j →
      (dataRowsOf previous).getD i [] = (dataRowsOf current).getD j []) :
    detectCellEdits previous current s = [] := by
  simp only [detectCellEdits]
  apply List.flatMap_eq_nil_iff.2
  intro rp hrp
  cases hcase : alookup (buildRowMap (dataRowsOf current)) rp.1 with
  | none => rfl
  | some j =>
    have hrow := hrows rp.1 rp.2 j (alookup_of_mem_ok (buildRowMap_ok _) hrp) hcase
    simp only
    apply List.filterMap_eq_nil_iff.2
    intro cp hcp
    rw [← hcol, columnMappingOf_self (buildColMap_ok _)] at hcp
    rcases List.mem_map.1 hcp with ⟨p, _, hpe⟩
    by_cases hz : cp.2.1 = 0 ∧ cp.2.2 = 0
    · rw [if_pos hz]
    · rw [if_neg hz]
      have hsame : cp.2.1 = cp.2.2 := by
        rw [← hpe]
      rw [hrow, hsame, if_pos rfl]

/-- Diffing a sheet against itself yields no events. -/
theorem sheetChanges_self (t : Table) (s : String) : sheetChanges t t s = [] := by
  unfold sheetChanges
  by_cases h : t.length = 0 ∧ t.length = 0
  · rw [if_pos h]
  · rw [if_neg h, detectColumnChanges_eq_nil rfl, detectRowChanges_eq_nil rfl,
      detectCellEdits_eq_nil rfl ?_]
    · rfl
    · intro k i j h1 h2
      rw [h1] at h2
      cases h2
      rfl

/-- C1: comparing any snapshot with itself yields the empty event list;
the Differ is idempotent on identical previous/current snapshots, so no
INSERT/REMOVE/EDIT events of any kind are emitted for any sheet. -/
theorem detectChanges_self (A : SheetData) : detectChanges A A = [] := by
  unfold detectChanges
  apply List.flatMap_eq_nil_iff.2
  intro s _
  exact sheetChanges_self _ s

/-! ### Value normalization (C4) -/

/-- C4: `normalizeValue` maps `null` and absent/`undefined` values to the
empty string and every other value to its textual (string) representation
with leading and trailing whitespace removed. This single function is the
one invoked for header comparison (`buildColMap`), primary-key comparison
(`buildRowMap`) and cell-value equality (`detectCellEdits`), as visible in
those definitions. -/
theorem normalizeValue_spec :
    normalizeValue CellValue.null = "" ∧
    normalizeValue CellValue.undef = "" ∧
    (∀ v : CellValue, v ≠ CellValue.null → v ≠ CellValue.undef →
      normalizeValue v = trimString (cellToString v)) ∧
    (∀ s : String, normalizeValue (CellValue.str s) = trimString s) ∧
    normalizeValue (CellValue.str " \t x y \n ") = "x y" := by
  refine ⟨rfl, rfl, ?_, fun s => rfl, by decide⟩
  intro v h1 h2
  cases v with
  | null => exact absurd rfl h1
  | undef => exact absurd rfl h2
  | str s => rfl
  | num n => rfl
  | boolV b => rfl

/-- Witness for C4 at a concrete non-null, non-absent input. -/
theorem normalizeValue_spec_witness :
    CellValue.num 5 ≠ CellValue.null ∧
      normalizeValue (CellValue.num 5) = trimString (cellToString (CellValue.num 5)) :=
  ⟨by decide, normalizeValue_spec.2.2.1 (CellValue.num 5) (by decide) (by decide)⟩

/-! ### Address formatter (C5) -/

theorem columnToLetterGo_congr (n : Nat) :
    ∀ f1 f2, n ≤ f1 → n ≤ f2 → columnToLetterGo f1 n = columnToLetterGo f2 n := by
  induction n using Nat.strong_induction_on with
  | _ n ih =>
    intro f1 f2 h1 h2
    cases n with
    | zero => cases f1 <;> cases f2 <;> rfl
    | succ m =>
      cases f1 with
      | zero => omega
      | succ g1 =>
        cases f2 with
        | zero => omega
        | succ g2 =>
          simp only [columnToLetterGo]
          congr 1
          exact ih (m / 26) (by omega) g1 g2 (by omega) (by omega)

/-- The defining recurrence of `columnToLetter`, mirroring one iteration of
the source's `while` loop. -/
theorem columnToLetter_succ (n : Nat) :
    columnToLetter (n + 1)
      = columnToLetter (n / 26) ++ String.mk [Char.ofNat (65 + n % 26)] := by
  unfold columnToLetter
  simp only [columnToLetterGo]
  congr 1
  exact columnToLetterGo_congr (n / 26) n (n / 26) (by omega) (Nat.le_refl _)

/-- C5: `columnToLetter` is the bijective base-26 letter encoding of
1-indexed column numbers: 1 → "A", 26 → "Z", 27 → "AA", and for `1 ≤ r ≤ 26`
it satisfies `columnToLetter (26*q + r) = columnToLetter q ++ letter r`
(empty prefix when `q = 0`, since `columnToLetter 0 = ""`). -/
theorem columnToLetter_spec :
    columnToLetter 0 = "" ∧
    columnToLetter 1 = "A" ∧
    columnToLetter 26 = "Z" ∧
    columnToLetter 27 = "AA" ∧
    ∀ q r, 1 ≤ r → r ≤ 26 →
      columnToLetter (26 * q + r) = columnToLetter q ++ String.mk [Char.ofNat (64 + r)] := by
  refine ⟨rfl, by decide, by decide, by decide, ?_⟩
  intro q r h1 h2
  have he : 26 * q + r = (26 * q + (r - 1)) + 1 := by omega
  rw [he, columnToLetter_succ]
  have hd : (26 * q + (r - 1)) / 26 = q := by omega
  have hm : (26 * q + (r - 1)) % 26 = r - 1 := by omega
  have hc : 65 + (r - 1) = 64 + r := by omega
  rw [hd, hm, hc]

/-- Witness for C5's recurrence at `q = 1`, `r = 2` (column 28 = "AB"). -/
theorem columnToLetter_spec_witness :
    (1 : Nat) ≤ 2 ∧ (2 : Nat) ≤ 26 ∧
      columnToLetter (26 * 1 + 2) = columnToLetter 1 ++ String.mk [Char.ofNat (64 + 2)] :=
  ⟨by decide, by decide, columnToLetter_spec.2.2.2.2 1 2 (by decide) (by decide)⟩

/-! ### Totality and graceful degradation (C3) -/

theorem flatMap_congr {α β : Type _} {l : List α} {f g : α → List β}
    (h : ∀ a ∈ l, f a = g a) : l.flatMap f = l.flatMap g := by
  induction l with
  | nil => rfl
  | cons a as ih =>
    rw [List.flatMap_cons, List.flatMap_cons, h a (List.mem_cons_self a as),
      ih (fun x hx => h x (List.mem_cons_of_mem a hx))]

theorem flatMap_filter_ne {β : Type _} (l : List String) (x : String) (g : String → List β) :
    (l.filter (fun y => y ≠ x)).flatMap g
      = l.flatMap (fun n => if n = x then [] else g n) := by
  induction l with
  | nil => rfl
  | cons a as ih =>
    by_cases ha : a = x
    · subst ha
      rw [List.filter_cons_of_neg (by simp), List.flatMap_cons, if_pos rfl, ih,
        List.nil_append]
    · rw [List.filter_cons_of_pos (by simp [ha]), List.flatMap_cons, List.flatMap_cons,
        if_neg ha, ih]

/-- Inserting a name that contributes no events anywhere in the iterated
list leaves the flatMap over the deduplicated list unchanged. -/
theorem dedupFirst_flatMap_insert {β : Type _} (s : String) :
    ∀ (xs ys : List String) (g : String → List β), s ∉ xs → g s = [] →
      (dedupFirst (xs ++ s :: ys)).flatMap g = (dedupFirst (xs ++ ys)).flatMap g := by
  intro xs
  induction xs with
  | nil =>
    intro ys g _ hg
    simp only [List.nil_append, dedupFirst, List.flatMap_cons, hg, List.nil_append]
    rw [flatMap_filter_ne]
    exact flatMap_congr (fun n _ => by
      by_cases hn : n = s
      · rw [if_pos hn, hn, hg]
      · rw [if_neg hn])
  | cons a xs ih =>
    intro ys g hs hg
    have ha : a ≠ s := fun he => hs (he ▸ List.mem_cons_self a xs)
    have hs' : s ∉ xs := fun hm => hs (List.mem_cons_of_mem a hm)
    simp only [List.cons_append, dedupFirst, List.flatMap_cons]
    rw [flatMap_filter_ne, flatMap_filter_ne]
    have hg' : (if s = a then ([] : List β) else g s) = [] := by
      rw [if_neg (fun he => ha he.symm), hg]
    congr 1
    exact ih ys (fun n => if n = a then [] else g n) hs' hg'

theorem alookup_not_mem_keys {β : Type} {m : List (String × β)} {k : String}
    (h : k ∉ m.map Prod.fst) : alookup m k = none := by
  induction m with
  | nil => rfl
  | cons p rest ih =>
    simp only [List.map_cons, List.mem_cons] at h
    push_neg at h
    simp only [alookup]
    rw [if_neg (fun he => h.1 he.symm)]
    exact ih h.2

theorem lookupTable_append_single {p : SheetData} {s n : String} {t : Table}
    (h : n ≠ s) : lookupTable (p ++ [(s, t)]) n = lookupTable p n := by
  unfold lookupTable
  cases hc : alookup p n with
  | some v => rw [alookup_append_some hc]
  | none =>
    rw [alookup_append_none hc]
    have hne : ¬ s = n := fun he => h he.symm
    simp [alookup, hne]

/-- C3: the Differ is a total function — it returns an event list for every
pair of snapshots, including malformed ones — and degrades gracefully: a
sheet name absent from a snapshot behaves exactly like an explicitly empty
table (appending `(s, [])` to either side changes nothing), missing cells
read as the empty value (`normalizeValue` of an absent cell is `""`), and a
concrete thoroughly malformed pair (ragged rows, missing header row, empty
table, sheets present on only one side) still yields a well-defined event
list. -/
theorem detectChanges_total_graceful :
    (∀ (p c : SheetData) (s : String), s ∉ keysOf p → s ∉ keysOf c →
      detectChanges (p ++ [(s, [])]) c = detectChanges p c) ∧
    (∀ (p c : SheetData) (s : String), s ∉ keysOf p → s ∉ keysOf c →
      detectChanges p (c ++ [(s, [])]) = detectChanges p c) ∧
    normalizeValue CellValue.undef = "" ∧
    detectChanges [] [] = [] ∧
    (detectChanges malformedPrev malformedCurr).map
        (fun e => (e.changeType, e.sheetName))
      = [(ChangeType.REMOVE_COLUMN, "Ragged"), (ChangeType.REMOVE_ROW, "Ragged"),
         (ChangeType.REMOVE_COLUMN, "OnlyPrev"), (ChangeType.INSERT_ROW, "OnlyCurr")] := by
  refine ⟨?_, ?_, rfl, rfl, by decide⟩
  · intro p c s hp hc
    unfold detectChanges
    have hkeys : keysOf (p ++ [(s, [])]) ++ keysOf c = keysOf p ++ s :: keysOf c := by
      simp [keysOf]
    rw [hkeys]
    have hbody : ∀ n,
        sheetChanges (lookupTable (p ++ [(s, [])]) n) (lookupTable c n) n
          = sheetChanges (lookupTable p n) (lookupTable c n) n := by
      intro n
      by_cases hn : n = s
      · subst hn
        have h1 : lookupTable (p ++ [(n, [])]) n = [] := by
          unfold lookupTable
          rw [alookup_append_none (alookup_not_mem_keys (by simpa [keysOf] using hp))]
          simp [alookup]
        have h2 : lookupTable p n = [] := by
          unfold lookupTable
          rw [alookup_not_mem_keys (by simpa [keysOf] using hp)]
          rfl
        rw [h1, h2]
      · rw [lookupTable_append_single hn]
    rw [flatMap_congr (fun n _ => hbody n)]
    have hgs : sheetChanges (lookupTable p s) (lookupTable c s) s = [] := by
      have h2 : lookupTable p s = [] := by
        unfold lookupTable
        rw [alookup_not_mem_keys (by simpa [keysOf] using hp)]
        rfl
      have h3 : lookupTable c s = [] := by
        unfold lookupTable
        rw [alookup_not_mem_keys (by simpa [keysOf] using hc)]
        rfl
      rw [h2, h3]
      unfold sheetChanges
      rw [if_pos ⟨rfl, rfl⟩]
    exact dedupFirst_flatMap_insert s (keysOf p) (keysOf c) _ (by simpa [keysOf] using hp) hgs
  · intro p c s hp hc
    unfold detectChanges
    have hkeys : keysOf p ++ keysOf (c ++ [(s, [])]) = (keysOf p ++ keysOf c) ++ s :: [] := by
      simp [keysOf]
    rw [hkeys]
    have hbody : ∀ n,
        sheetChanges (lookupTable p n) (lookupTable (c ++ [(s, [])]) n) n
          = sheetChanges (lookupTable p n) (lookupTable c n) n := by
      intro n
      by_cases hn : n = s
      · subst hn
        have h1 : lookupTable (c ++ [(n, [])]) n = [] := by
          unfold lookupTable
          rw [alookup_append_none (alookup_not_mem_keys (by simpa [keysOf] using hc))]
          simp [alookup]
        have h2 : lookupTable c n = [] := by
          unfold lookupTable
          rw [alookup_not_mem_keys (by simpa [keysOf] using hc)]
          rfl
        rw [h1, h2]
      · rw [lookupTable_append_single hn]
    rw [flatMap_congr (fun n _ => hbody n)]
    have hgs : sheetChanges (lookupTable p s) (lookupTable c s) s = [] := by
      have h2 : lookupTable p s = [] := by
        unfold lookupTable
        rw [alookup_not_mem_keys (by simpa [keysOf] using hp)]
        rfl
      have h3 : lookupTable c s = [] := by
        unfold lookupTable
        rw [alookup_not_mem_keys (by simpa [keysOf] using hc)]
        rfl
      rw [h2, h3]
      unfold sheetChanges
      rw [if_pos ⟨rfl, rfl⟩]
    have hmem : s ∉ keysOf p ++ keysOf c := by
      rw [List.mem_append]
      push_neg
      exact ⟨by simpa [keysOf] using hp, by simpa [keysOf] using hc⟩
    have hins := dedupFirst_flatMap_insert s (keysOf p ++ keysOf c) []
      (fun n => sheetChanges (lookupTable p n) (lookupTable c n) n) hmem hgs
    rw [List.append_nil] at hins
    exact hins

/-- Witness for C3's graceful-degradation conjuncts at concrete snapshots. -/
theorem detectChanges_total_graceful_witness :
    ("T" ∉ keysOf emptyKeySnap) ∧
      detectChanges (emptyKeySnap ++ [("T", [])]) emptyKeySnap
        = detectChanges emptyKeySnap emptyKeySnap :=
  ⟨by decide, detectChanges_total_graceful.1 emptyKeySnap emptyKeySnap "T"
    (by decide) (by decide)⟩

/-! ### Event classification and ordering (C9) -/

theorem mem_detectColumnChanges {previous current : Table} {s : String} {e : ChangeEvent}
    (h : e ∈ detectColumnChanges previous current s) :
    (e.changeType = ChangeType.INSERT_COLUMN ∨ e.changeType = ChangeType.REMOVE_COLUMN) ∧
      e.sheetName = s := by
  simp only [detectColumnChanges] at h
  rcases List.mem_append.1 h with h | h
  · rcases List.mem_filterMap.1 h with ⟨p, _, hp⟩
    by_cases hc : (alookup (buildColMap (headerOf previous)) p.1).isSome = true
    · rw [if_pos hc] at hp
      cases hp
    · rw [if_neg hc] at hp
      cases hp
      exact ⟨by simp, rfl⟩
  · rcases List.mem_filterMap.1 h with ⟨p, _, hp⟩
    by_cases hc : (alookup (buildColMap (headerOf current)) p.1).isSome = true
    · rw [if_pos hc] at hp
      cases hp
    · rw [if_neg hc] at hp
      cases hp
      exact ⟨by simp, rfl⟩

theorem mem_detectRowChanges {previous current : Table} {s : String} {e : ChangeEvent}
    (h : e ∈ detectRowChanges previous current s) :
    (e.changeType = ChangeType.INSERT_ROW ∨ e.changeType = ChangeType.REMOVE_ROW) ∧
      e.sheetName = s := by
  simp only [detectRowChanges] at h
  rcases List.mem_append.1 h with h | h
  · rcases List.mem_filterMap.1 h with ⟨p, _, hp⟩
    by_cases hc : (alookup (buildRowMap (dataRowsOf previous)) p.1).isSome = true
    · rw [if_pos hc] at hp
      cases hp
    · rw [if_neg hc] at hp
      cases hp
      exact ⟨by simp, rfl⟩
  · rcases List.mem_filterMap.1 h with ⟨p, _, hp⟩
    by_cases hc : (alookup (buildRowMap (dataRowsOf current)) p.1).isSome = true
    · rw [if_pos hc] at hp
      cases hp
    · rw [if_neg hc] at hp
      cases hp
      exact ⟨by simp, rfl⟩

theorem mem_detectCellEdits {previous current : Table} {s : String} {e : ChangeEvent}
    (h : e ∈ detectCellEdits previous current s) :
    e.changeType = ChangeType.EDIT ∧ e.sheetName = s := by
  simp only [detectCellEdits] at h
  rcases List.mem_flatMap.1 h with ⟨rp, _, he⟩
  cases hc : alookup (buildRowMap (dataRowsOf current)) rp.1 with
  | none =>
    rw [hc] at he
    cases he
  | some j =>
    rw [hc] at he
    rcases List.mem_filterMap.1 he with ⟨cp, _, hcp⟩
    by_cases h0 : cp.2.1 = 0 ∧ cp.2.2 = 0
    · rw [if_pos h0] at hcp
      cases hcp
    · rw [if_neg h0] at hcp
      by_cases heq : normalizeValue (if getCell ((dataRowsOf previous).getD rp.2 []) cp.2.1
            = CellValue.undef then CellValue.str ""
            else getCell ((dataRowsOf previous).getD rp.2 []) cp.2.1)
          = normalizeValue (if getCell ((dataRowsOf current).getD j []) cp.2.2
            = CellValue.undef then CellValue.str ""
            else getCell ((dataRowsOf current).getD j []) cp.2.2)
      · rw [if_pos heq] at hcp
        cases hcp
      · rw [if_neg heq] at hcp
        cases hcp
        exact ⟨rfl, rfl⟩

theorem pairwise_le_of_all {l : List Nat} {k : Nat} (h : ∀ x ∈ l, x = k) :
    l.Pairwise (fun a b => a ≤ b) := by
  induction l with
  | nil => exact List.Pairwise.nil
  | cons a as ih =>
    refine List.pairwise_cons.2 ⟨fun b hb => ?_, ih (fun x hx => h x (List.mem_cons_of_mem a hx))⟩
    rw [h a (List.mem_cons_self a as), h b (List.mem_cons_of_mem a hb)]

/-- C9: the event list is grouped by sheet — `detectChanges` is the
concatenation, over the deduplicated (hence duplicate-free) union of sheet
names in first-occurrence order, of per-sheet event lists; every event of a
sheet's list carries that sheet's name, so events of different sheets are
never interleaved; and within one sheet all column events precede all row
events, which precede all EDIT events (`phaseRank` is monotone along the
list). -/
theorem detectChanges_ordering (p c : SheetData) :
    (dedupFirst (keysOf p ++ keysOf c)).Nodup ∧
    detectChanges p c = (dedupFirst (keysOf p ++ keysOf c)).flatMap
      (fun s => sheetChanges (lookupTable p s) (lookupTable c s) s) ∧
    (∀ (t1 t2 : Table) (s : String), ∀ e ∈ sheetChanges t1 t2 s, e.sheetName = s) ∧
    (∀ (t1 t2 : Table) (s : String),
      ((sheetChanges t1 t2 s).map phaseRank).Pairwise (fun a b => a ≤ b)) := by
  refine ⟨dedupFirst_nodup _, rfl, ?_, ?_⟩
  · intro t1 t2 s e he
    unfold sheetChanges at he
    by_cases h0 : t1.length = 0 ∧ t2.length = 0
    · rw [if_pos h0] at he
      cases he
    · rw [if_neg h0] at he
      rcases List.mem_append.1 he with he | he
      · rcases List.mem_append.1 he with he | he
        · exact (mem_detectColumnChanges he).2
        · exact (mem_detectRowChanges he).2
      · exact (mem_detectCellEdits he).2
  · intro t1 t2 s
    unfold sheetChanges
    by_cases h0 : t1.length = 0 ∧ t2.length = 0
    · rw [if_pos h0]
      exact List.Pairwise.nil
    · rw [if_neg h0]
      have hcol : ∀ x ∈ (detectColumnChanges t1 t2 s).map phaseRank, x = 0 := by
        intro x hx
        rcases List.mem_map.1 hx with ⟨e, he, hxe⟩
        rcases (mem_detectColumnChanges he).1 with h | h <;>
          · rw [← hxe]
            simp [phaseRank, h]
      have hrow : ∀ x ∈ (detectRowChanges t1 t2 s).map phaseRank, x = 1 := by
        intro x hx
        rcases List.mem_map.1 hx with ⟨e, he, hxe⟩
        rcases (mem_detectRowChanges he).1 with h | h <;>
          · rw [← hxe]
            simp [phaseRank, h]
      have hedit : ∀ x ∈ (detectCellEdits t1 t2 s).map phaseRank, x = 2 := by
        intro x hx
        rcases List.mem_map.1 hx with ⟨e, he, hxe⟩
        rw [← hxe]
        simp [phaseRank, (mem_detectCellEdits he).1]
      rw [List.map_append, List.map_append, List.pairwise_append]
      refine ⟨?_, pairwise_le_of_all hedit, ?_⟩
      · rw [List.pairwise_append]
        refine ⟨pairwise_le_of_all hcol, pairwise_le_of_all hrow, ?_⟩
        intro a ha b hb
        rw [hcol a ha]
        exact Nat.zero_le b
      · intro a ha b hb
        rw [hedit b hb]
        rcases List.mem_append.1 ha with ha | ha
        · rw [hcol a ha]
          omega
        · rw [hrow a ha]
          omega

/-- Witness for C9's per-sheet conjuncts at a concrete sheet with one
removed row. -/
theorem detectChanges_ordering_witness :
    ({ changeType := ChangeType.REMOVE_ROW
       sheetName := "W"
       affectedRange :=
        { startRow := 2, endRow := 2, startColumn := 1, endColumn := 1, a1Notation := "2:2" }
       rowIndex := some 2
       deletedData := some [[CellValue.str "a"]] } : ChangeEvent)
        ∈ sheetChanges [[CellValue.str "id"], [CellValue.str "a"]] [[CellValue.str "id"]] "W" ∧
    ({ changeType := ChangeType.REMOVE_ROW
       sheetName := "W"
       affectedRange :=
        { startRow := 2, endRow := 2, startColumn := 1, endColumn := 1, a1Notation := "2:2" }
       rowIndex := some 2
       deletedData := some [[CellValue.str "a"]] } : ChangeEvent).sheetName = "W" ∧
    ((sheetChanges [[CellValue.str "id"], [CellValue.str "a"]] [[CellValue.str "id"]] "W").map
      phaseRank).Pairwise (fun a b => a ≤ b) :=
  ⟨by decide,
   (detectChanges_ordering [] []).2.2.1 [[CellValue.str "id"], [CellValue.str "a"]]
     [[CellValue.str "id"]] "W" _ (by decide),
   (detectChanges_ordering [] []).2.2.2 [[CellValue.str "id"], [CellValue.str "a"]]
     [[CellValue.str "id"]] "W"⟩

/-! ### Empty-key rows (C2) -/

theorem rowKeys_getD {rows : Table} {i : Nat} (h : i < rows.length) :
    (rowKeys rows).getD i "" = normalizeValue (getCell (rows.getD i []) 0) := by
  unfold rowKeys
  rw [List.getD_eq_getElem?_getD, List.getElem?_map,
    List.getElem?_eq_getElem h, List.getD_eq_getElem?_getD, List.getElem?_eq_getElem h]
  rfl

theorem headerKeys_getD {hdr : List CellValue} {i : Nat} (h : i < hdr.length) :
    (headerKeys hdr).getD i "" = normalizeValue (hdr.getD i CellValue.undef) := by
  unfold headerKeys
  rw [List.getD_eq_getElem?_getD, List.getElem?_map,
    List.getElem?_eq_getElem h, List.getD_eq_getElem?_getD, List.getElem?_eq_getElem h]
  rfl

/-- Counterexample to C2 as stated: `emptyKeySnap` contains a data row whose
primary key normalizes to the empty string, yet comparing the snapshot with
itself produces no events at all — in particular the row is *not* reported
as inserted and removed. -/
theorem emptyKey_counterexample : detectChanges emptyKeySnap emptyKeySnap = [] := by decide

/-- C2 (amended): rows whose primary-key cell normalizes to the empty string
are excluded from both row maps, so the Row Matcher never reports them at
all: every `INSERT_ROW` (resp. `REMOVE_ROW`) event payload is a single row
whose primary key normalizes to a non-empty string. In particular a
comparison of identical snapshots that still contain such a row emits no
events for it (see the counterexample). -/
theorem emptyKey_rows_invisible (previous current : Table) (s : String) :
    ∀ e ∈ detectRowChanges previous current s,
      (e.changeType = ChangeType.INSERT_ROW →
        ∃ row, e.insertedData = some [row] ∧ normalizeValue (getCell row 0) ≠ "") ∧
      (e.changeType = ChangeType.REMOVE_ROW →
        ∃ row, e.deletedData = some [row] ∧ normalizeValue (getCell row 0) ≠ "") := by
  intro e he
  simp only [detectRowChanges] at he
  rcases List.mem_append.1 he with he | he
  · rcases List.mem_filterMap.1 he with ⟨p, hpmem, hp⟩
    by_cases hl : (alookup (buildRowMap (dataRowsOf previous)) p.1).isSome = true
    · rw [if_pos hl] at hp
      cases hp
    · rw [if_neg hl] at hp
      cases hp
      rcases buildRowMap_mem hpmem with ⟨hlt, hkey, hne⟩
      constructor
      · intro _
        refine ⟨(dataRowsOf current).getD p.2 [], rfl, ?_⟩
        rw [← rowKeys_getD hlt, ← hkey]
        exact hne
      · intro habs
        cases habs
  · rcases List.mem_filterMap.1 he with ⟨p, hpmem, hp⟩
    by_cases hl : (alookup (buildRowMap (dataRowsOf current)) p.1).isSome = true
    · rw [if_pos hl] at hp
      cases hp
    · rw [if_neg hl] at hp
      cases hp
      rcases buildRowMap_mem hpmem with ⟨hlt, hkey, hne⟩
      constructor
      · intro habs
        cases habs
      · intro _
        refine ⟨(dataRowsOf previous).getD p.2 [], rfl, ?_⟩
        rw [← rowKeys_getD hlt, ← hkey]
        exact hne

/-- Witness for C2's amended theorem at a concrete removed row. -/
theorem emptyKey_rows_invisible_witness :
    ({ changeType := ChangeType.REMOVE_ROW
       sheetName := "S"
       affectedRange :=
        { startRow := 2, endRow := 2, startColumn := 1, endColumn := 1, a1Notation := "2:2" }
       rowIndex := some 2
       deletedData := some [[CellValue.str "bob"]] } : ChangeEvent)
        ∈ detectRowChanges [[CellValue.str "id"], [CellValue.str "bob"]] [[CellValue.str "id"]]
            "S" ∧
      ∃ row, (some [[CellValue.str "bob"]] : Option Table) = some [row] ∧
        normalizeValue (getCell row 0) ≠ "" :=
  ⟨by decide,
   ((emptyKey_rows_invisible [[CellValue.str "id"], [CellValue.str "bob"]]
      [[CellValue.str "id"]] "S")
      { changeType := ChangeType.REMOVE_ROW
        sheetName := "S"
        affectedRange :=
          { startRow := 2, endRow := 2, startColumn := 1, endColumn := 1, a1Notation := "2:2" }
        rowIndex := some 2
        deletedData := some [[CellValue.str "bob"]] } (by decide)).2 rfl⟩

/-! ### Column insertion payload (C6) -/

/-- Counterexample to C6 as stated: the new column `"n"` of `zeroCellCurr`
has the single data value `0` (a number, not an empty string), yet the
emitted `INSERT_COLUMN` event carries `insertedData = []`: the source's
`row[c] || ''` coercion plus `val !== ''` filter drops every *falsy* value,
not just empty strings. -/
theorem insertColumn_falsy_counterexample :
    detectColumnChanges zeroCellPrev zeroCellCurr "S"
      = [{ changeType := ChangeType.INSERT_COLUMN
           sheetName := "S"
           affectedRange :=
            { startRow := 1, endRow := 2, startColumn := 2, endColumn := 2
              a1Notation := "B1:B2" }
           columnIndex := some 2
           insertedData := some [] }] := by decide

/-- The column payload keeps exactly the truthy cells, with their raw
values. -/
theorem columnData_eq_spec (t : Table) (c : Nat) :
    columnData t c
      = ((dataRowsOf t).map (fun row => [getCell row c])).filter
          (fun l => truthy (getCell l 0)) := by
  unfold columnData dataRowsOf
  by_cases h : t.length > 1
  · rw [if_pos h, if_pos h]
    generalize t.drop 1 = rows
    induction rows with
    | nil => rfl
    | cons r rest ih =>
      rw [List.map_cons, List.map_cons]
      by_cases ht : truthy (getCell r c) = true
      · have h1 : jsOrEmpty (getCell r c) = getCell r c := by
          unfold jsOrEmpty
          rw [if_pos ht]
        have h2 : getCell [jsOrEmpty (getCell r c)] 0 ≠ CellValue.str "" := by
          rw [h1]
          intro habs
          rw [show getCell [getCell r c] 0 = getCell r c from rfl] at habs
          rw [habs] at ht
          simp [truthy] at ht
        rw [List.filter_cons_of_pos (by simpa using h2),
          List.filter_cons_of_pos (by simpa [getCell] using ht), h1, ih]
      · have h1 : jsOrEmpty (getCell r c) = CellValue.str "" := by
          unfold jsOrEmpty
          rw [if_neg ht]
        have h2 : ¬ (getCell [jsOrEmpty (getCell r c)] 0 ≠ CellValue.str "") := by
          rw [h1]
          intro habs
          exact habs rfl
        rw [List.filter_cons_of_neg (by simpa using h2),
          List.filter_cons_of_neg (by simpa [getCell] using ht), ih]
  · rw [if_neg h, if_neg h]
    rfl

/-- C6 (amended): for every normalized header text present in the current
header map at column `c` and absent from the previous one, the Differ emits
exactly one `INSERT_COLUMN` event at 1-indexed column `c+1`: its range spans
row 1 through `max(previous row count, current row count)` at that single
column, its `columnIndex` is `c+1`, and its `insertedData` is the column's
current data-row values (header excluded) with the JS-*falsy* values
filtered out — a cell is kept, raw, iff it is truthy, so numeric `0`,
`false` and null/absent cells are dropped along with empty strings (not
only the empty-string values, as the original claim stated). -/
theorem detectColumnChanges_insert (previous current : Table) (s k : String) (c : Nat)
    (hc : alookup (buildColMap (headerOf current)) k = some c)
    (hp : alookup (buildColMap (headerOf previous)) k = none) :
    (detectColumnChanges previous current s).filter
        (fun e => decide (e.changeType = ChangeType.INSERT_COLUMN ∧
          e.columnIndex = some (c + 1)))
      = [{ changeType := ChangeType.INSERT_COLUMN
           sheetName := s
           affectedRange :=
            { startRow := 1, endRow := Nat.max previous.length current.length
              startColumn := c + 1, endColumn := c + 1
              a1Notation := columnToLetter (c + 1) ++ "1:" ++ columnToLetter (c + 1)
                ++ toString (Nat.max previous.length current.length) }
           columnIndex := some (c + 1)
           insertedData := some (((dataRowsOf current).map (fun row => [getCell row c])).filter
             (fun l => truthy (getCell l 0))) }] := by
  have hmem : (k, c) ∈ buildColMap (headerOf current) := alookup_mem hc
  obtain ⟨l1, l2, hsplit⟩ := List.append_of_mem hmem
  have hok : MapOK (buildColMap (headerOf current)) := buildColMap_ok _
  rw [hsplit] at hok
  unfold MapOK at hok
  rw [List.pairwise_append] at hok
  rcases hok with ⟨_, hok2, hcross⟩
  have hl1 : ∀ x ∈ l1, x.2 ≠ c := fun x hx =>
    (hcross x hx (k, c) (List.mem_cons_self _ _)).2
  have hl2 : ∀ x ∈ l2, x.2 ≠ c := fun x hx =>
    fun he => ((List.pairwise_cons.1 hok2).1 x hx).2 he.symm
  simp only [detectColumnChanges]
  rw [hsplit, List.filterMap_append,
    List.filterMap_cons_some (by
      rw [if_neg (by simp [hp])]), List.filter_append, List.filter_append,
    List.filter_cons_of_pos (by simp)]
  have hins : ∀ (l : List (String × Nat)), (∀ x ∈ l, x.2 ≠ c) →
      List.filter (fun (e : ChangeEvent) => decide (e.changeType = ChangeType.INSERT_COLUMN ∧
          e.columnIndex = some (c + 1)))
        (List.filterMap (fun (p : String × Nat) =>
          if (alookup (buildColMap (headerOf previous)) p.1).isSome = true then
            (none : Option ChangeEvent)
          else some
            { changeType := ChangeType.INSERT_COLUMN
              sheetName := s
              affectedRange :=
                { startRow := 1, endRow := Nat.max previous.length current.length
                  startColumn := p.2 + 1, endColumn := p.2 + 1
                  a1Notation := columnToLetter (p.2 + 1) ++ "1:" ++ columnToLetter (p.2 + 1)
                    ++ toString (Nat.max previous.length current.length) }
              columnIndex := some (p.2 + 1)
              insertedData := some (columnData current p.2) }) l) = [] := by
    intro l hl
    rw [List.filter_eq_nil_iff]
    intro e hemem
    rcases List.mem_filterMap.1 hemem with ⟨x, hx, hxe⟩
    by_cases hxl : (alookup (buildColMap (headerOf previous)) x.1).isSome = true
    · rw [if_pos hxl] at hxe
      cases hxe
    · rw [if_neg hxl] at hxe
      cases hxe
      simp only [decide_eq_true_eq, not_and]
      intro _
      intro habs
      exact hl x hx (by simpa using habs)
  have hrem : List.filter (fun (e : ChangeEvent) =>
        decide (e.changeType = ChangeType.INSERT_COLUMN ∧ e.columnIndex = some (c + 1)))
      (List.filterMap (fun (p : String × Nat) =>
        if (alookup (l1 ++ (k, c) :: l2) p.1).isSome = true then (none : Option ChangeEvent)
        else some
          { changeType := ChangeType.REMOVE_COLUMN
            sheetName := s
            affectedRange :=
              { startRow := 1, endRow := Nat.max previous.length current.length
                startColumn := p.2 + 1, endColumn := p.2 + 1
                a1Notation := columnToLetter (p.2 + 1) ++ "1:" ++ columnToLetter (p.2 + 1)
                  ++ toString (Nat.max previous.length current.length) }
            columnIndex := some (p.2 + 1)
            deletedData := some (columnData previous p.2) })
        (buildColMap (headerOf previous))) = [] := by
    rw [List.filter_eq_nil_iff]
    intro e hemem
    rcases List.mem_filterMap.1 hemem with ⟨x, _, hxe⟩
    by_cases hxl : (alookup (l1 ++ (k, c) :: l2) x.1).isSome = true
    · rw [if_pos hxl] at hxe
      cases hxe
    · rw [if_neg hxl] at hxe
      cases hxe
      simp
  rw [hins l1 hl1, hins l2 hl2, hrem, columnData_eq_spec]
  rfl

/-- Witness for C6's amended theorem: new column `"v"` whose data cells are
an empty string (dropped), a whitespace string (kept) and the number 7
(kept). -/
theorem detectColumnChanges_insert_witness :
    alookup (buildColMap (headerOf
        [[CellValue.str "id", CellValue.str "v"],
         [CellValue.str "a", CellValue.str ""],
         [CellValue.str "b", CellValue.str " "],
         [CellValue.str "c", CellValue.num 7]])) "v" = some 1 ∧
    (detectColumnChanges [[CellValue.str "id"]]
        [[CellValue.str "id", CellValue.str "v"],
         [CellValue.str "a", CellValue.str ""],
         [CellValue.str "b", CellValue.str " "],
         [CellValue.str "c", CellValue.num 7]] "S").filter
        (fun e => decide (e.changeType = ChangeType.INSERT_COLUMN ∧
          e.columnIndex = some (1 + 1)))
      = [{ changeType := ChangeType.INSERT_COLUMN
           sheetName := "S"
           affectedRange :=
            { startRow := 1, endRow := Nat.max 1 4
              startColumn := 1 + 1, endColumn := 1 + 1
              a1Notation := columnToLetter (1 + 1) ++ "1:" ++ columnToLetter (1 + 1)
                ++ toString (Nat.max 1 4) }
           columnIndex := some (1 + 1)
           insertedData := some (((dataRowsOf
                [[CellValue.str "id", CellValue.str "v"],
                 [CellValue.str "a", CellValue.str ""],
                 [CellValue.str "b", CellValue.str " "],
                 [CellValue.str "c", CellValue.num 7]]).map
              (fun row => [getCell row 1])).filter
             (fun l => truthy (getCell l 0))) }] :=
  ⟨by decide,
   detectColumnChanges_insert [[CellValue.str "id"]]
     [[CellValue.str "id", CellValue.str "v"],
      [CellValue.str "a", CellValue.str ""],
      [CellValue.str "b", CellValue.str " "],
      [CellValue.str "c", CellValue.num 7]] "S" "v" 1 (by decide) (by decide)⟩

/-! ### Blank headers participate in column matching (C10) -/

theorem countP_key_le_one {m : List (String × Nat)} (hm : MapOK m) (k : String) :
    m.countP (fun p => decide (p.1 = k)) ≤ 1 := by
  induction m with
  | nil => simp
  | cons q rest ih =>
    rcases List.pairwise_cons.1 hm with ⟨hq, hrest⟩
    by_cases hk : q.1 = k
    · rw [List.countP_cons_of_pos _ _ (by simp [hk])]
      have hzero : rest.countP (fun p => decide (p.1 = k)) = 0 :=
        List.countP_eq_zero.2 (fun p hp => by
          simp only [decide_eq_true_eq]
          exact fun habs => (hq p hp).1 (hk.trans habs.symm))
      omega
    · rw [List.countP_cons_of_neg _ _ (by simp [hk])]
      exact ih hrest

/-- C10: unlike data rows, header cells normalizing to the empty string are
*not* excluded from the header maps: a blank header (empty, whitespace-only
or absent) participates in column matching under the key `""`; the map
retains the first blank column's index (`firstIdx` of the normalized
header texts), at most one entry per snapshot has the blank key, and a
blank-header column present on only one side is reported as an
`INSERT_COLUMN` / `REMOVE_COLUMN` at that column. -/
theorem blankHeader_matching :
    (∀ hdr : List CellValue, (buildColMap hdr).countP (fun p => decide (p.1 = "")) ≤ 1) ∧
    (∀ hdr : List CellValue, alookup (buildColMap hdr) "" = firstIdx (headerKeys hdr) "") ∧
    normalizeValue (CellValue.str "   ") = "" ∧
    normalizeValue CellValue.undef = "" ∧
    (∀ (previous current : Table) (s : String) (c : Nat),
      alookup (buildColMap (headerOf current)) "" = some c →
      alookup (buildColMap (headerOf previous)) "" = none →
      ∃ e ∈ detectColumnChanges previous current s,
        e.changeType = ChangeType.INSERT_COLUMN ∧ e.columnIndex = some (c + 1)) ∧
    (∀ (previous current : Table) (s : String) (c : Nat),
      alookup (buildColMap (headerOf previous)) "" = some c →
      alookup (buildColMap (headerOf current)) "" = none →
      ∃ e ∈ detectColumnChanges previous current s,
        e.changeType = ChangeType.REMOVE_COLUMN ∧ e.columnIndex = some (c + 1)) := by
  refine ⟨fun hdr => countP_key_le_one (buildColMap_ok hdr) "", fun hdr => ?_,
    by decide, rfl, ?_, ?_⟩
  · rw [buildColMap, mapFromKeysGo_lookup_fresh _ _ 0 [] rfl rfl]
    cases firstIdx (headerKeys hdr) "" with
    | none => rfl
    | some d => simp
  · intro previous current s c hc hp
    simp only [detectColumnChanges]
    refine ⟨{ changeType := ChangeType.INSERT_COLUMN
              sheetName := s
              affectedRange :=
                { startRow := 1, endRow := Nat.max previous.length current.length
                  startColumn := c + 1, endColumn := c + 1
                  a1Notation := columnToLetter (c + 1) ++ "1:" ++ columnToLetter (c + 1)
                    ++ toString (Nat.max previous.length current.length) }
              columnIndex := some (c + 1)
              insertedData := some (columnData current c) }, ?_, rfl, rfl⟩
    apply List.mem_append_left
    apply List.mem_filterMap.2
    exact ⟨("", c), alookup_mem hc, by rw [if_neg (by simp [hp])]⟩
  · intro previous current s c hc hp
    simp only [detectColumnChanges]
    refine ⟨{ changeType := ChangeType.REMOVE_COLUMN
              sheetName := s
              affectedRange :=
                { startRow := 1, endRow := Nat.max previous.length current.length
                  startColumn := c + 1, endColumn := c + 1
                  a1Notation := columnToLetter (c + 1) ++ "1:" ++ columnToLetter (c + 1)
                    ++ toString (Nat.max previous.length current.length) }
              columnIndex := some (c + 1)
              deletedData := some (columnData previous c) }, ?_, rfl, rfl⟩
    apply List.mem_append_right
    apply List.mem_filterMap.2
    exact ⟨("", c), alookup_mem hc, by rw [if_neg (by simp [hp])]⟩

/-- Witness for C10 at a concrete whitespace-only header present only in
the current snapshot. -/
theorem blankHeader_matching_witness :
    alookup (buildColMap (headerOf [[CellValue.str "id", CellValue.str " "]])) "" = some 1 ∧
    ∃ e ∈ detectColumnChanges [[CellValue.str "id"]]
        [[CellValue.str "id", CellValue.str " "]] "S",
      e.changeType = ChangeType.INSERT_COLUMN ∧ e.columnIndex = some (1 + 1) :=
  ⟨by decide, blankHeader_matching.2.2.2.2.1 [[CellValue.str "id"]]
    [[CellValue.str "id", CellValue.str " "]] "S" 1 (by decide) (by decide)⟩

/-! ### One-cell / one-key modifications: shared infrastructure (C7, C8) -/

theorem getD_set_self {α : Type _} {l : List α} {i : Nat} {a d : α} (h : i < l.length) :
    (l.set i a).getD i d = a := by
  rw [List.getD_eq_getElem?_getD, List.getElem?_set_self h]
  rfl

theorem getD_set_ne {α : Type _} {l : List α} {i j : Nat} (h : i ≠ j) {a d : α} :
    (l.set i a).getD j d = l.getD j d := by
  rw [List.getD_eq_getElem?_getD, List.getElem?_set_ne h, ← List.getD_eq_getElem?_getD]

theorem set_eq_self_of_getElem? {α : Type _} {l : List α} {i : Nat} {a : α}
    (h : l[i]? = some a) : l.set i a = l := by
  induction l generalizing i with
  | nil =>
    rw [List.getElem?_nil] at h
    exact Option.noConfusion h
  | cons b t ih =>
    cases i with
    | zero =>
      simp only [List.getElem?_cons_zero, Option.some.injEq] at h
      rw [← h]
      rfl
    | succ n =>
      simp only [List.getElem?_cons_succ] at h
      show b :: t.set n a = b :: t
      rw [ih h]

theorem rowKeys_set {drs : Table} {i : Nat} {x : List CellValue} (hi : i < drs.length)
    (hk : normalizeValue (getCell x 0) = normalizeValue (getCell (drs.getD i []) 0)) :
    rowKeys (drs.set i x) = rowKeys drs := by
  apply List.ext_getElem?
  intro n
  unfold rowKeys
  rw [List.getElem?_map, List.getElem?_map]
  by_cases hn : i = n
  · subst hn
    rw [List.getElem?_set_self hi, List.getElem?_eq_getElem hi]
    have hg : drs.getD i [] = drs[i] := by
      rw [List.getD_eq_getElem?_getD, List.getElem?_eq_getElem hi]
      rfl
    rw [hg] at hk
    simp [hk]
  · rw [List.getElem?_set_ne hn]

theorem headerOf_set_succ (T : Table) (i : Nat) (x : List CellValue) :
    headerOf (T.set (i + 1) x) = headerOf T := by
  cases T <;> rfl

theorem dataRowsOf_set_succ {T : Table} (i : Nat) (x : List CellValue) (hT : 1 < T.length) :
    dataRowsOf (T.set (i + 1) x) = (dataRowsOf T).set i x := by
  unfold dataRowsOf
  rw [List.length_set, if_pos hT, if_pos hT]
  cases T with
  | nil => simp at hT
  | cons a t => rfl

theorem mapOK_value_inj {m : List (String × Nat)} (hm : MapOK m) {p q : String × Nat}
    (hp : p ∈ m) (hq : q ∈ m) (h : p.2 = q.2) : p = q := by
  induction m with
  | nil => cases hp
  | cons a rest ih =>
    rcases List.pairwise_cons.1 hm with ⟨ha, hrest⟩
    rcases List.mem_cons.1 hp with hp1 | hp1
    · rcases List.mem_cons.1 hq with hq1 | hq1
      · rw [hp1, hq1]
      · subst hp1
        exact absurd h (ha q hq1).2
    · rcases List.mem_cons.1 hq with hq1 | hq1
      · subst hq1
        exact absurd h.symm (ha p hp1).2
      · exact ih hrest hp1 hq1

theorem keys_of_alookup {β : Type} {m : List (String × β)} {k : String} {v : β}
    (h : alookup m k = some v) : k ∈ m.map Prod.fst :=
  List.mem_map.2 ⟨(k, v), alookup_mem h, rfl⟩

/-- When exactly one sheet's tables can differ and that sheet is present,
the whole diff reduces to that sheet's pipeline. -/
theorem detectChanges_single_sheet {previousData currentData : SheetData} {s : String}
    {T T' : Table}
    (hprev : alookup previousData s = some T)
    (hcurr : alookup currentData s = some T')
    (hothers : ∀ n, n ≠ s → lookupTable previousData n = lookupTable currentData n) :
    detectChanges previousData currentData = sheetChanges T T' s := by
  unfold detectChanges
  have hsmem : s ∈ dedupFirst (keysOf previousData ++ keysOf currentData) := by
    rw [mem_dedupFirst, List.mem_append]
    exact Or.inl (keys_of_alookup hprev)
  obtain ⟨l1, l2, hsplit⟩ := List.append_of_mem hsmem
  have hnodup := dedupFirst_nodup (keysOf previousData ++ keysOf currentData)
  rw [hsplit] at hnodup
  unfold List.Nodup at hnodup
  rw [List.pairwise_middle (fun hxy => Ne.symm hxy), List.pairwise_cons] at hnodup
  have hnot : s ∉ l1 ∧ s ∉ l2 := by
    have hboth : s ∈ l1 ++ l2 → False := fun hmem => hnodup.1 s hmem rfl
    exact ⟨fun hmem => hboth (List.mem_append.2 (Or.inl hmem)),
      fun hmem => hboth (List.mem_append.2 (Or.inr hmem))⟩
  have hside : ∀ (l : List String), s ∉ l → ∀ n ∈ l,
      sheetChanges (lookupTable previousData n) (lookupTable currentData n) n = [] := by
    intro l hsl n hn
    have hns : n ≠ s := fun he => hsl (he ▸ hn)
    rw [hothers n hns]
    exact sheetChanges_self _ n
  rw [hsplit, flatMap_split s (hside l1 hnot.1) (hside l2 hnot.2)]
  have hTs : lookupTable previousData s = T := by
    unfold lookupTable
    rw [hprev]
    rfl
  have hTs' : lookupTable currentData s = T' := by
    unfold lookupTable
    rw [hcurr]
    rfl
  rw [hTs, hTs']

/-- The cell-edit scanner on a table whose data row `i` (matched by key,
first occurrence) changed exactly in column `j` (matched by header, not the
key column) reports exactly the one edit, carrying the raw old and new
values. -/
theorem detectCellEdits_one_cell
    {T : Table} {i j : Nat} {v' : CellValue} (s : String)
    (hT : 1 < T.length)
    (hi : i < (dataRowsOf T).length)
    (hj0 : j ≠ 0)
    (hjlen : j < ((dataRowsOf T).getD i []).length)
    (hold : getCell ((dataRowsOf T).getD i []) j ≠ CellValue.undef)
    (hnew : v' ≠ CellValue.undef)
    (hkey : alookup (buildRowMap (dataRowsOf T))
        (normalizeValue (getCell ((dataRowsOf T).getD i []) 0)) = some i)
    (hcol : alookup (buildColMap (headerOf T))
        (normalizeValue ((headerOf T).getD j CellValue.undef)) = some j)
    (hne : normalizeValue (getCell ((dataRowsOf T).getD i []) j) ≠ normalizeValue v') :
    detectCellEdits T (T.set (i + 1) (((dataRowsOf T).getD i []).set j v')) s
      = [{ changeType := ChangeType.EDIT
           sheetName := s
           affectedRange :=
            { startRow := i + 2, endRow := i + 2, startColumn := j + 1, endColumn := j + 1
              a1Notation := columnToLetter (j + 1) ++ toString (i + 2) }
           cellAddress := some (columnToLetter (j + 1) ++ toString (i + 2))
           oldValue := some (getCell ((dataRowsOf T).getD i []) j)
           newValue := some v' }] := by
  have hrowkey : normalizeValue (getCell (((dataRowsOf T).getD i []).set j v') 0)
      = normalizeValue (getCell ((dataRowsOf T).getD i []) 0) := by
    unfold getCell
    rw [getD_set_ne hj0]
  have hdata : dataRowsOf (T.set (i + 1) (((dataRowsOf T).getD i []).set j v'))
      = (dataRowsOf T).set i (((dataRowsOf T).getD i []).set j v') :=
    dataRowsOf_set_succ _ _ hT
  have hmap : buildRowMap ((dataRowsOf T).set i (((dataRowsOf T).getD i []).set j v'))
      = buildRowMap (dataRowsOf T) := by
    unfold buildRowMap
    rw [rowKeys_set hi hrowkey]
  simp only [detectCellEdits, headerOf_set_succ, hdata, hmap]
  obtain ⟨r1, r2, hRsplit⟩ := List.append_of_mem (alookup_mem hkey)
  have hRok : MapOK (buildRowMap (dataRowsOf T)) := buildRowMap_ok _
  have hRok' := hRok
  rw [hRsplit] at hRok'
  unfold MapOK at hRok'
  rw [List.pairwise_append] at hRok'
  rcases hRok' with ⟨_, hok2R, hcrossR⟩
  have hr1 : ∀ x ∈ r1, x.2 ≠ i := fun x hx =>
    (hcrossR x hx _ (List.mem_cons_self _ _)).2
  have hr2 : ∀ x ∈ r2, x.2 ≠ i := fun x hx he =>
    ((List.pairwise_cons.1 hok2R).1 x hx).2 he.symm
  have hMok := buildColMap_ok (headerOf T)
  rw [hRsplit]
  refine Eq.trans (flatMap_split _ ?side1 ?side2) ?center
  case side1 =>
    intro x hx
    have hlook : alookup
        (r1 ++ (normalizeValue (getCell ((dataRowsOf T).getD i []) 0), i) :: r2) x.1
        = some x.2 := by
      rw [← hRsplit]
      exact alookup_of_mem_ok hRok (by
        rw [hRsplit]
        exact List.mem_append_left _ hx)
    simp only [hlook]
    apply List.filterMap_eq_nil_iff.2
    intro cp hcp
    rw [columnMappingOf_self hMok] at hcp
    rcases List.mem_map.1 hcp with ⟨q, _, hq⟩
    rw [← hq]
    by_cases hq0 : q.2 = 0
    · rw [if_pos ⟨hq0, hq0⟩]
    · rw [if_neg (fun hand => hq0 hand.1)]
      rw [getD_set_ne (fun he => hr1 x hx he.symm)]
      rw [if_pos rfl]
  case side2 =>
    intro x hx
    have hlook : alookup
        (r1 ++ (normalizeValue (getCell ((dataRowsOf T).getD i []) 0), i) :: r2) x.1
        = some x.2 := by
      rw [← hRsplit]
      exact alookup_of_mem_ok hRok (by
        rw [hRsplit]
        exact List.mem_append_right _ (List.mem_cons_of_mem _ hx))
    simp only [hlook]
    apply List.filterMap_eq_nil_iff.2
    intro cp hcp
    rw [columnMappingOf_self hMok] at hcp
    rcases List.mem_map.1 hcp with ⟨q, _, hq⟩
    rw [← hq]
    by_cases hq0 : q.2 = 0
    · rw [if_pos ⟨hq0, hq0⟩]
    · rw [if_neg (fun hand => hq0 hand.1)]
      rw [getD_set_ne (fun he => hr2 x hx he.symm)]
      rw [if_pos rfl]
  case center =>
    have hkey' : alookup
        (r1 ++ (normalizeValue (getCell ((dataRowsOf T).getD i []) 0), i) :: r2)
        (normalizeValue (getCell ((dataRowsOf T).getD i []) 0)) = some i := by
      rw [← hRsplit]
      exact hkey
    simp only [hkey']
    rw [getD_set_self hi]
    rw [columnMappingOf_self hMok, List.filterMap_map]
    obtain ⟨m1, m2, hMsplit⟩ := List.append_of_mem (alookup_mem hcol)
    have hMok' := hMok
    rw [hMsplit] at hMok'
    unfold MapOK at hMok'
    rw [List.pairwise_append] at hMok'
    rcases hMok' with ⟨_, hok2M, hcrossM⟩
    have hm1 : ∀ x ∈ m1, x.2 ≠ j := fun x hx =>
      (hcrossM x hx _ (List.mem_cons_self _ _)).2
    have hm2 : ∀ x ∈ m2, x.2 ≠ j := fun x hx he =>
      ((List.pairwise_cons.1 hok2M).1 x hx).2 he.symm
    rw [hMsplit]
    refine filterMap_split _ ?colside1 ?colside2 ?colcenter
    case colside1 =>
      intro x hx
      show (if x.2 = 0 ∧ x.2 = 0 then _ else _) = none
      by_cases hx0 : x.2 = 0
      · rw [if_pos ⟨hx0, hx0⟩]
      · rw [if_neg (fun hand => hx0 hand.1)]
        unfold getCell
        rw [getD_set_ne (fun he => hm1 x hx he.symm)]
        rw [if_pos rfl]
    case colside2 =>
      intro x hx
      show (if x.2 = 0 ∧ x.2 = 0 then _ else _) = none
      by_cases hx0 : x.2 = 0
      · rw [if_pos ⟨hx0, hx0⟩]
      · rw [if_neg (fun hand => hx0 hand.1)]
        unfold getCell
        rw [getD_set_ne (fun he => hm2 x hx he.symm)]
        rw [if_pos rfl]
    case colcenter =>
      show (if j = 0 ∧ j = 0 then _ else _) = _
      rw [if_neg (fun hand => hj0 hand.1)]
      have hcurr : getCell (((dataRowsOf T).getD i []).set j v') j = v' := by
        unfold getCell
        rw [getD_set_self hjlen]
      rw [hcurr, if_neg hold, if_neg hnew, if_neg hne]

/-- C7 (edit isolation): when the current snapshot is the previous one with
exactly one cell changed — in sheet `s`, data row `i` (matched by primary
key: its key is the first occurrence in the row map), column `j` (matched by
header: its normalized header looks up to `j` in the header map), with
`j ≠ 0` so the key is unchanged, all header texts unchanged, both cells
present, and the normalized values unequal — `detectChanges` returns exactly
one event: an `EDIT` at cell `(i+2, j+1)` whose `oldValue` is the raw
previous cell value and whose `newValue` is the raw current cell value, and
no `INSERT_ROW`, `REMOVE_ROW`, `INSERT_COLUMN` or `REMOVE_COLUMN` events. -/
theorem detectChanges_edit_isolation
    (previousData currentData : SheetData) (s : String) (T : Table) (i j : Nat)
    (v' : CellValue)
    (hT : 1 < T.length)
    (hi : i < (dataRowsOf T).length)
    (hj0 : j ≠ 0)
    (hjlen : j < ((dataRowsOf T).getD i []).length)
    (hold : getCell ((dataRowsOf T).getD i []) j ≠ CellValue.undef)
    (hnew : v' ≠ CellValue.undef)
    (hkey : alookup (buildRowMap (dataRowsOf T))
        (normalizeValue (getCell ((dataRowsOf T).getD i []) 0)) = some i)
    (hcol : alookup (buildColMap (headerOf T))
        (normalizeValue ((headerOf T).getD j CellValue.undef)) = some j)
    (hne : normalizeValue (getCell ((dataRowsOf T).getD i []) j) ≠ normalizeValue v')
    (hprev : alookup previousData s = some T)
    (hcurr : alookup currentData s
      = some (T.set (i + 1) (((dataRowsOf T).getD i []).set j v')))
    (hothers : ∀ n, n ≠ s → lookupTable previousData n = lookupTable currentData n) :
    detectChanges previousData currentData
      = [{ changeType := ChangeType.EDIT
           sheetName := s
           affectedRange :=
            { startRow := i + 2, endRow := i + 2, startColumn := j + 1, endColumn := j + 1
              a1Notation := columnToLetter (j + 1) ++ toString (i + 2) }
           cellAddress := some (columnToLetter (j + 1) ++ toString (i + 2))
           oldValue := some (getCell ((dataRowsOf T).getD i []) j)
           newValue := some v' }] := by
  rw [detectChanges_single_sheet hprev hcurr hothers]
  unfold sheetChanges
  rw [if_neg (fun hand => by
    obtain ⟨h1, _⟩ := hand
    omega)]
  rw [detectColumnChanges_eq_nil (by rw [headerOf_set_succ])]
  rw [detectRowChanges_eq_nil (by
    rw [dataRowsOf_set_succ _ _ hT]
    unfold buildRowMap
    rw [rowKeys_set hi (by
      unfold getCell
      rw [getD_set_ne hj0])])]
  rw [detectCellEdits_one_cell s hT hi hj0 hjlen hold hnew hkey hcol hne]
  rfl

/-- Witness for C7 at the spec's scenario: editing "30" → "31" in the Age
column of alice's row yields exactly one EDIT at B2. -/
theorem detectChanges_edit_isolation_witness :
    detectChanges
        [("Sheet1", [[CellValue.str "Name", CellValue.str "Age"],
                     [CellValue.str "alice", CellValue.str "30"]])]
        [("Sheet1", [[CellValue.str "Name", CellValue.str "Age"],
                     [CellValue.str "alice", CellValue.str "31"]])]
      = [{ changeType := ChangeType.EDIT
           sheetName := "Sheet1"
           affectedRange :=
            { startRow := 2, endRow := 2, startColumn := 2, endColumn := 2
              a1Notation := "B2" }
           cellAddress := some "B2"
           oldValue := some (CellValue.str "30")
           newValue := some (CellValue.str "31") }] := by
  have happ := detectChanges_edit_isolation
    [("Sheet1", [[CellValue.str "Name", CellValue.str "Age"],
                 [CellValue.str "alice", CellValue.str "30"]])]
    [("Sheet1", [[CellValue.str "Name", CellValue.str "Age"],
                 [CellValue.str "alice", CellValue.str "31"]])]
    "Sheet1"
    [[CellValue.str "Name", CellValue.str "Age"], [CellValue.str "alice", CellValue.str "30"]]
    0 1 (CellValue.str "31")
    (by decide) (by decide) (by decide) (by decide) (by decide) (by decide)
    (by decide) (by decide) (by decide) (by decide) (by decide)
    (by
      intro n hn
      have hne : ¬("Sheet1" = n) := fun he => hn he.symm
      simp [lookupTable, alookup, hne])
  exact happ.trans (by decide)

/-! ### Primary-key changes (C8) -/

/-- Counterexample to C8 as stated: changing row 1's key from `"a"` to
`"b"` — a different, non-empty normalized value — collides with the other
row's key `"b"`, and the diff then reports only one `REMOVE_ROW` and *no*
`INSERT_ROW` for the new key. -/
theorem keyCollision_counterexample :
    (detectChanges keyCollisionPrev keyCollisionCurr).countP
        (fun e => decide (e.changeType = ChangeType.INSERT_ROW)) = 0 ∧
    (detectChanges keyCollisionPrev keyCollisionCurr).countP
        (fun e => decide (e.changeType = ChangeType.REMOVE_ROW)) = 1 :=
  ⟨by decide, by decide⟩

/-- C8 (amended): changing only the primary-key cell of one data row to a
different non-empty normalized value *that does not collide with any other
row's key* (the old key maps to this row and disappears from the current
snapshot, the new key is absent from the previous snapshot and maps to this
row, and every other key's mapping is unaffected) is invisible to the Cell
Edit Scanner — the result contains no `EDIT` at all, in particular none for
that cell — and is reported as exactly one `INSERT_ROW` for the new key and
one `REMOVE_ROW` for the old key, both at row `i + 2`, carrying the new and
old row respectively. -/
theorem detectChanges_key_change
    (previousData currentData : SheetData) (s : String) (T : Table) (i : Nat)
    (newv : CellValue)
    (hT : 1 < T.length)
    (hi : i < (dataRowsOf T).length)
    (hA : alookup (buildRowMap (dataRowsOf T))
        (normalizeValue (getCell ((dataRowsOf T).getD i []) 0)) = some i)
    (hB : alookup (buildRowMap (dataRowsOf
          (T.set (i + 1) (((dataRowsOf T).getD i []).set 0 newv))))
        (normalizeValue (getCell ((dataRowsOf T).getD i []) 0)) = none)
    (hC : alookup (buildRowMap (dataRowsOf T)) (normalizeValue newv) = none)
    (hD : alookup (buildRowMap (dataRowsOf
          (T.set (i + 1) (((dataRowsOf T).getD i []).set 0 newv))))
        (normalizeValue newv) = some i)
    (hE : ∀ k, k ≠ normalizeValue (getCell ((dataRowsOf T).getD i []) 0) →
      k ≠ normalizeValue newv →
      alookup (buildRowMap (dataRowsOf T)) k
        = alookup (buildRowMap (dataRowsOf
            (T.set (i + 1) (((dataRowsOf T).getD i []).set 0 newv)))) k)
    (hprev : alookup previousData s = some T)
    (hcurr : alookup currentData s
      = some (T.set (i + 1) (((dataRowsOf T).getD i []).set 0 newv)))
    (hothers : ∀ n, n ≠ s → lookupTable previousData n = lookupTable currentData n) :
    ∃ e1 e2, detectChanges previousData currentData = [e1, e2] ∧
      e1.changeType = ChangeType.INSERT_ROW ∧ e1.sheetName = s ∧
      e1.rowIndex = some (i + 2) ∧
      e1.insertedData = some [((dataRowsOf T).getD i []).set 0 newv] ∧
      e2.changeType = ChangeType.REMOVE_ROW ∧ e2.sheetName = s ∧
      e2.rowIndex = some (i + 2) ∧
      e2.deletedData = some [(dataRowsOf T).getD i []] := by
  have hdata : dataRowsOf (T.set (i + 1) (((dataRowsOf T).getD i []).set 0 newv))
      = (dataRowsOf T).set i (((dataRowsOf T).getD i []).set 0 newv) :=
    dataRowsOf_set_succ _ _ hT
  rw [hdata] at hB hD
  have hE' : ∀ k, k ≠ normalizeValue (getCell ((dataRowsOf T).getD i []) 0) →
      k ≠ normalizeValue newv →
      alookup (buildRowMap (dataRowsOf T)) k
        = alookup (buildRowMap
            ((dataRowsOf T).set i (((dataRowsOf T).getD i []).set 0 newv))) k := by
    intro k h1 h2
    rw [← hdata]
    exact hE k h1 h2
  have hPok : MapOK (buildRowMap (dataRowsOf T)) := buildRowMap_ok _
  have hCok : MapOK (buildRowMap
      ((dataRowsOf T).set i (((dataRowsOf T).getD i []).set 0 newv))) := buildRowMap_ok _
  have heq : detectChanges previousData currentData
      = [{ changeType := ChangeType.INSERT_ROW
           sheetName := s
           affectedRange :=
            { startRow := i + 2, endRow := i + 2, startColumn := 1
              endColumn := maxColOf (dataRowsOf T)
                ((dataRowsOf T).set i (((dataRowsOf T).getD i []).set 0 newv))
                (((dataRowsOf T).set i (((dataRowsOf T).getD i []).set 0 newv)).getD i [])
              a1Notation := toString (i + 2) ++ ":" ++ toString (i + 2) }
           rowIndex := some (i + 2)
           insertedData :=
            some [((dataRowsOf T).set i (((dataRowsOf T).getD i []).set 0 newv)).getD i []] },
         { changeType := ChangeType.REMOVE_ROW
           sheetName := s
           affectedRange :=
            { startRow := i + 2, endRow := i + 2, startColumn := 1
              endColumn := maxColOf (dataRowsOf T)
                ((dataRowsOf T).set i (((dataRowsOf T).getD i []).set 0 newv))
                ((dataRowsOf T).getD i [])
              a1Notation := toString (i + 2) ++ ":" ++ toString (i + 2) }
           rowIndex := some (i + 2)
           deletedData := some [(dataRowsOf T).getD i []] }] := by
    rw [detectChanges_single_sheet hprev hcurr hothers]
    unfold sheetChanges
    rw [if_neg (fun hand => by
      obtain ⟨h1, _⟩ := hand
      omega)]
    rw [detectColumnChanges_eq_nil (by rw [headerOf_set_succ])]
    rw [detectCellEdits_eq_nil (by rw [headerOf_set_succ]) ?hrows]
    case hrows =>
      intro k i' j' h1 h2
      rw [hdata] at h2
      have hkold : k ≠ normalizeValue (getCell ((dataRowsOf T).getD i []) 0) := by
        intro he
        rw [he, hB] at h2
        cases h2
      have hknew : k ≠ normalizeValue newv := by
        intro he
        rw [he, hC] at h1
        cases h1
      have hsame := hE' k hkold hknew
      rw [h1, h2] at hsame
      injection hsame with hij
      subst hij
      have hii' : i' ≠ i := by
        intro he
        subst he
        have hmem1 := alookup_mem h1
        have hmem2 := alookup_mem hA
        have := mapOK_value_inj hPok hmem1 hmem2 rfl
        injection this with hk1 _
        exact hkold hk1
      rw [hdata, getD_set_ne (fun he => hii' he.symm)]
    simp only [detectRowChanges, hdata]
    obtain ⟨c1, c2, hCsplit⟩ := List.append_of_mem (alookup_mem hD)
    obtain ⟨p1, p2, hPsplit⟩ := List.append_of_mem (alookup_mem hA)
    have hCok' := hCok
    rw [hCsplit] at hCok'
    unfold MapOK at hCok'
    rw [List.pairwise_append] at hCok'
    rcases hCok' with ⟨_, hCok2, hCcross⟩
    have hPok' := hPok
    rw [hPsplit] at hPok'
    unfold MapOK at hPok'
    rw [List.pairwise_append] at hPok'
    rcases hPok' with ⟨_, hPok2, hPcross⟩
    rw [List.nil_append, List.append_nil, hCsplit, hPsplit]
    have hBs : alookup (c1 ++ (normalizeValue newv, i) :: c2)
        (normalizeValue (getCell ((dataRowsOf T).getD i []) 0)) = none := by
      rw [← hCsplit]
      exact hB
    have hCs : alookup (p1 ++ (normalizeValue (getCell ((dataRowsOf T).getD i []) 0), i) :: p2)
        (normalizeValue newv) = none := by
      rw [← hPsplit]
      exact hC
    refine Eq.trans (congrArg₂ (fun a b => a ++ b)
      (filterMap_split _ ?i1 ?i2 ?ic) (filterMap_split _ ?r1 ?r2 ?rc)) rfl
    case ic =>
      rw [if_neg (by rw [hCs]; simp)]
    case rc =>
      rw [if_neg (by rw [hBs]; simp)]
    case i1 =>
      intro x hx
      have hxC : alookup (c1 ++ (normalizeValue newv, i) :: c2) x.1 = some x.2 := by
        rw [← hCsplit]
        exact alookup_of_mem_ok hCok (by
          rw [hCsplit]
          exact List.mem_append_left _ hx)
      have hxnew : x.1 ≠ normalizeValue newv :=
        (hCcross x hx _ (List.mem_cons_self _ _)).1
      have hxold : x.1 ≠ normalizeValue (getCell ((dataRowsOf T).getD i []) 0) := by
        intro he
        rw [he, hBs] at hxC
        cases hxC
      have hxP : alookup
          (p1 ++ (normalizeValue (getCell ((dataRowsOf T).getD i []) 0), i) :: p2) x.1
          = some x.2 := by
        rw [← hPsplit, hE' x.1 hxold hxnew, hCsplit]
        exact hxC
      rw [if_pos (by rw [hxP]; rfl)]
    case i2 =>
      intro x hx
      have hxC : alookup (c1 ++ (normalizeValue newv, i) :: c2) x.1 = some x.2 := by
        rw [← hCsplit]
        exact alookup_of_mem_ok hCok (by
          rw [hCsplit]
          exact List.mem_append_right _ (List.mem_cons_of_mem _ hx))
      have hxnew : x.1 ≠ normalizeValue newv := fun he =>
        ((List.pairwise_cons.1 hCok2).1 x hx).1 he.symm
      have hxold : x.1 ≠ normalizeValue (getCell ((dataRowsOf T).getD i []) 0) := by
        intro he
        rw [he, hBs] at hxC
        cases hxC
      have hxP : alookup
          (p1 ++ (normalizeValue (getCell ((dataRowsOf T).getD i []) 0), i) :: p2) x.1
          = some x.2 := by
        rw [← hPsplit, hE' x.1 hxold hxnew]
        rw [← hCsplit] at hxC
        exact hxC
      rw [if_pos (by rw [hxP]; rfl)]
    case r1 =>
      intro x hx
      have hxP : alookup
          (p1 ++ (normalizeValue (getCell ((dataRowsOf T).getD i []) 0), i) :: p2) x.1
          = some x.2 := by
        rw [← hPsplit]
        exact alookup_of_mem_ok hPok (by
          rw [hPsplit]
          exact List.mem_append_left _ hx)
      have hxold : x.1 ≠ normalizeValue (getCell ((dataRowsOf T).getD i []) 0) :=
        (hPcross x hx _ (List.mem_cons_self _ _)).1
      have hxnew : x.1 ≠ normalizeValue newv := by
        intro he
        rw [he, hCs] at hxP
        cases hxP
      have hxC : alookup (c1 ++ (normalizeValue newv, i) :: c2) x.1 = some x.2 := by
        rw [← hCsplit, ← hE' x.1 hxold hxnew]
        rw [← hPsplit] at hxP
        exact hxP
      rw [if_pos (by rw [hxC]; rfl)]
    case r2 =>
      intro x hx
      have hxP : alookup
          (p1 ++ (normalizeValue (getCell ((dataRowsOf T).getD i []) 0), i) :: p2) x.1
          = some x.2 := by
        rw [← hPsplit]
        exact alookup_of_mem_ok hPok (by
          rw [hPsplit]
          exact List.mem_append_right _ (List.mem_cons_of_mem _ hx))
      have hxold : x.1 ≠ normalizeValue (getCell ((dataRowsOf T).getD i []) 0) := fun he =>
        ((List.pairwise_cons.1 hPok2).1 x hx).1 he.symm
      have hxnew : x.1 ≠ normalizeValue newv := by
        intro he
        rw [he, hCs] at hxP
        cases hxP
      have hxC : alookup (c1 ++ (normalizeValue newv, i) :: c2) x.1 = some x.2 := by
        rw [← hCsplit, ← hE' x.1 hxold hxnew]
        rw [← hPsplit] at hxP
        exact hxP
      rw [if_pos (by rw [hxC]; rfl)]
  refine ⟨_, _, heq, rfl, rfl, rfl, ?_, rfl, rfl, rfl, rfl⟩
  show some [((dataRowsOf T).set i (((dataRowsOf T).getD i []).set 0 newv)).getD i []]
    = some [((dataRowsOf T).getD i []).set 0 newv]
  rw [getD_set_self hi]

/-- Witness for C8's amended theorem: changing the single data row's key
from "a" to the fresh key "b". -/
theorem detectChanges_key_change_witness :
    ∃ e1 e2, detectChanges [("S", [[CellValue.str "id"], [CellValue.str "a"]])]
        [("S", [[CellValue.str "id"], [CellValue.str "b"]])] = [e1, e2] ∧
      e1.changeType = ChangeType.INSERT_ROW ∧ e1.sheetName = "S" ∧
      e1.rowIndex = some (0 + 2) ∧
      e1.insertedData = some
        [((dataRowsOf [[CellValue.str "id"], [CellValue.str "a"]]).getD 0 []).set 0
          (CellValue.str "b")] ∧
      e2.changeType = ChangeType.REMOVE_ROW ∧ e2.sheetName = "S" ∧
      e2.rowIndex = some (0 + 2) ∧
      e2.deletedData = some [(dataRowsOf [[CellValue.str "id"], [CellValue.str "a"]]).getD 0 []] :=
  detectChanges_key_change
    [("S", [[CellValue.str "id"], [CellValue.str "a"]])]
    [("S", [[CellValue.str "id"], [CellValue.str "b"]])]
    "S" [[CellValue.str "id"], [CellValue.str "a"]] 0 (CellValue.str "b")
    (by decide) (by decide) (by decide) (by decide) (by decide) (by decide)
    (by
      intro k h1 h2
      have ha : normalizeValue
          (getCell ((dataRowsOf [[CellValue.str "id"], [CellValue.str "a"]]).getD 0 []) 0)
          = "a" := by decide
      have hb : normalizeValue (CellValue.str "b") = "b" := by decide
      rw [ha] at h1
      rw [hb] at h2
      have e1 : buildRowMap (dataRowsOf [[CellValue.str "id"], [CellValue.str "a"]])
          = [("a", 0)] := by decide
      have e2 : buildRowMap (dataRowsOf
            ([[CellValue.str "id"], [CellValue.str "a"]].set (0 + 1)
              (((dataRowsOf [[CellValue.str "id"], [CellValue.str "a"]]).getD 0 []).set 0
                (CellValue.str "b"))))
          = [("b", 0)] := by decide
      rw [e1, e2]
      have hna : ¬("a" = k) := fun he => h1 he.symm
      have hnb : ¬("b" = k) := fun he => h2 he.symm
      simp [alookup, hna, hnb])
    (by decide) (by decide)
    (by
      intro n hn
      have hne : ¬("S" = n) := fun he => hn he.symm
      simp [lookupTable, alookup, hne])

end SheetSync
